import Mathlib

/-!
# BrainBolt — verification of the rate limiting / parsing / sanitization core

A shallow embedding of the server-side core of the BrainBolt repository:
the fixed-window rate limiter (`lib/rate-limit`, and the private copies in
`app/api/flashcards/route.ts` and `app/api/concept-booster/route.ts`), the
LLM-response parsers of the `mcq` and `flashcards` routes, the model
router (`lib/modelRouter.ts`), the error logger (`lib/errorHandler`) and
the input sanitizer (`lib/sanitize`).

Timestamps are naturals (milliseconds, as produced by `Date.now()`);
counters are naturals; `remaining` is an integer because the source
computes `limit - count` with JavaScript numbers.  JavaScript truthiness
on optional strings (`x || d`) is modelled explicitly: a missing value or
the empty string falls back to the default.
-/

/-- JavaScript `x || d` for an optional string: `undefined`/`null` and the
empty string are falsy, every other string is kept. -/
def orDefault (v : Option String) (d : String) : String :=
  match v with
  | some s => if s = "" then d else s
  | none => d

/-- JavaScript truthiness of an optional string (`undefined`, `null` and
`""` are falsy). -/
def truthy (v : Option String) : Bool :=
  match v with
  | some s => s ≠ ""
  | none => false

/-- JavaScript `\s` (ECMAScript WhiteSpace and LineTerminator). -/
def isJsSpace (c : Char) : Bool :=
  c.toNat = 32 || c.toNat = 9 || c.toNat = 10 || c.toNat = 0x0B || c.toNat = 0x0C ||
    c.toNat = 13 || c.toNat = 0xA0 || c.toNat = 0x1680 ||
    (0x2000 ≤ c.toNat && c.toNat ≤ 0x200A) || c.toNat = 0x2028 || c.toNat = 0x2029 ||
    c.toNat = 0x202F || c.toNat = 0x205F || c.toNat = 0x3000 || c.toNat = 0xFEFF

/-- `String.prototype.trim` on character lists (ECMAScript WhiteSpace ∪
LineTerminator, all contained in `isJsSpace`). -/
def jsTrimList (s : List Char) : List Char :=
  ((s.dropWhile isJsSpace).reverse.dropWhile isJsSpace).reverse

/-- `String.prototype.trim`. -/
def jsTrim (s : String) : String := ⟨jsTrimList s.data⟩

/-- ASCII upper-casing of one character. -/
def upperAscii (c : Char) : Char :=
  if 97 ≤ c.toNat && c.toNat ≤ 122 then Char.ofNat (c.toNat - 32) else c

/-- `String.prototype.toUpperCase` (ASCII; the parsed `correct` letters the
routes compare against are ASCII). -/
def strToUpper (s : String) : String := ⟨s.data.map upperAscii⟩

/-! ## Rate limiter (`MemoryRateLimiter.check` and the route-local
`checkRateLimit` copies in the flashcards and concept-booster routes;
all three bodies are identical up to the constants `limit = 10`,
`windowMs = 60000`). -/

/-- An entry of the in-memory rate-limit store:
`{ count: number; resetTime: number }`. -/
structure RateLimitEntry where
  count : Nat
  resetTime : Nat
  deriving Repr, DecidableEq

/-- The result of a rate-limit check:
`{ allowed: boolean; remaining: number; resetAt: number }`. -/
structure RateLimitResult where
  allowed : Bool
  remaining : Int
  resetAt : Nat
  deriving Repr, DecidableEq

/-- One fixed-window check against the entry stored under the caller's key.
Mirrors the body of `MemoryRateLimiter.check` (and the identical
`checkRateLimit` functions of the flashcards and concept-booster routes):

* no entry, or the stored entry's `resetTime < now` — store
  `{count: 1, resetTime: now + windowMs}` and allow with
  `remaining = limit - 1`;
* `count >= limit` — deny with `remaining = 0`;
* otherwise increment `count` and allow with `remaining = limit - count`.

Returns the result together with the new stored entry. -/
def fixedWindowCheck (entry : Option RateLimitEntry) (now limit windowMs : Nat) :
    RateLimitResult × RateLimitEntry :=
  match entry with
  | none =>
      let newEntry : RateLimitEntry := { count := 1, resetTime := now + windowMs }
      ({ allowed := true, remaining := (limit : Int) - 1, resetAt := newEntry.resetTime },
        newEntry)
  | some e =>
      if e.resetTime < now then
        let newEntry : RateLimitEntry := { count := 1, resetTime := now + windowMs }
        ({ allowed := true, remaining := (limit : Int) - 1, resetAt := newEntry.resetTime },
          newEntry)
      else if limit ≤ e.count then
        ({ allowed := false, remaining := 0, resetAt := e.resetTime }, e)
      else
        let e' : RateLimitEntry := { count := e.count + 1, resetTime := e.resetTime }
        ({ allowed := true, remaining := (limit : Int) - e'.count, resetAt := e.resetTime }, e')

/-- The store of a limiter: an association list keyed by strings, standing
for the JavaScript `Map<string, RateLimitEntry>`. -/
def RateStore := List (String × RateLimitEntry)

instance : DecidableEq RateStore := by
  unfold RateStore; infer_instance

/-- `Map.get` on the store. -/
def storeGet (st : RateStore) (k : String) : Option RateLimitEntry :=
  match st.find? (fun p => p.1 = k) with
  | some p => some p.2
  | none => none

/-- `Map.set` on the store (replaces the binding for `k`, keeps the rest). -/
def storeSet (st : RateStore) (k : String) (e : RateLimitEntry) : RateStore :=
  match st with
  | [] => [(k, e)]
  | p :: rest => if p.1 = k then (k, e) :: rest else p :: storeSet rest k e

/-- The opportunistic cleanup (`if (Math.random() < 0.1) ...`): evicts every
entry whose window has expired.  Whether it runs on a given call depends on
`Math.random()`, so the callers below take it as an explicit boolean. -/
def storeCleanup (st : RateStore) (now : Nat) : RateStore :=
  st.filter (fun p => ¬ p.2.resetTime < now)

/-- A full check against a keyed store: optional cleanup first (the
`Math.random() < 0.1` branch, made explicit by the `doClean` flag), then the
fixed-window logic on the caller's entry.  This is `MemoryRateLimiter.check`
after the key has been computed from the request. -/
def storeCheck (doClean : Bool) (st : RateStore) (key : String) (now limit windowMs : Nat) :
    RateLimitResult × RateStore :=
  let st1 := if doClean then storeCleanup st now else st
  let res := fixedWindowCheck (storeGet st1 key) now limit windowMs
  (res.1, storeSet st1 key res.2)

/-- Client-identifier extraction (`getIp` / the head of `getRateLimitKey`):
first comma-segment of `x-forwarded-for` (trimmed), else `x-real-ip`,
else `"unknown"`. -/
def clientIp (forwardedFor realIp : Option String) : String :=
  match forwardedFor with
  | some s =>
      if s = "" then (match realIp with | some r => if r = "" then "unknown" else r | none => "unknown")
      else jsTrim ((s.splitOn ",").headD s)
  | none => match realIp with | some r => if r = "" then "unknown" else r | none => "unknown"

/-! ### The three endpoints' limiter instances.

The flashcards and concept-booster routes each keep their own module-level
`rateLimitStore` and prefix their keys with `"flashcards:"` resp.
`"concept-booster:"`.  The mcq route calls the factory `getRateLimiter()`
inside `POST`, which constructs a **new** `MemoryRateLimiter` — with a fresh
empty `Map` — on every request; its keys are `"rate_limit:" + ip`. -/

/-- The module-level mutable state shared by requests: the flashcards
store and the concept-booster store.  (The mcq route has no persistent
limiter state: its limiter instance is created per request.) -/
structure GlobalRateState where
  flashStore : RateStore
  boostStore : RateStore
  deriving DecidableEq

/-- One flashcards-route rate-limit step (`checkRateLimit(getRateLimitKey(req))`
with `RATE_LIMIT_MAX_REQUESTS = 10`, `RATE_LIMIT_WINDOW_MS = 60000`). -/
def flashRateStep (doClean : Bool) (g : GlobalRateState) (ip : String) (now : Nat) :
    RateLimitResult × GlobalRateState :=
  let res := storeCheck doClean g.flashStore ("flashcards:" ++ ip) now 10 60000
  (res.1, { g with flashStore := res.2 })

/-- One concept-booster-route rate-limit step (same algorithm and constants,
key prefix `"concept-booster:"`). -/
def boostRateStep (doClean : Bool) (g : GlobalRateState) (ip : String) (now : Nat) :
    RateLimitResult × GlobalRateState :=
  let res := storeCheck doClean g.boostStore ("concept-booster:" ++ ip) now 10 60000
  (res.1, { g with boostStore := res.2 })

/-- One mcq-route rate-limit step: `getRateLimiter().check(req, 10, 60000)`.
The factory returns a brand-new `MemoryRateLimiter` whose private `store`
is an empty `Map`, so the check always runs against an empty store and the
instance is discarded afterwards; the module-level state is untouched. -/
def mcqRateStep (doClean : Bool) (g : GlobalRateState) (ip : String) (now : Nat) :
    RateLimitResult × GlobalRateState :=
  let res := storeCheck doClean ([] : RateStore) ("rate_limit:" ++ ip) now 10 60000
  (res.1, g)

/-! ### Single-key call sequences, for the monotonicity claim. -/

/-- The stored entry for one fixed client after `n` consecutive calls at
time `now`, starting from no entry. -/
def entryAfter (n : Nat) (now limit windowMs : Nat) : Option RateLimitEntry :=
  match n with
  | 0 => none
  | k + 1 => some (fixedWindowCheck (entryAfter k now limit windowMs) now limit windowMs).2

/-- The result of the `(n+1)`-st consecutive call (0-indexed `n`) at time
`now` for one fixed client, starting from no entry. -/
def nthCallResult (n : Nat) (now limit windowMs : Nat) : RateLimitResult :=
  (fixedWindowCheck (entryAfter n now limit windowMs) now limit windowMs).1

theorem entryAfter_succ_eq (n now limit windowMs : Nat) (h : 1 ≤ limit) :
    entryAfter (n + 1) now limit windowMs =
      some { count := min (n + 1) limit, resetTime := now + windowMs } := by
  induction n with
  | zero =>
      simp [entryAfter, fixedWindowCheck, Nat.min_eq_left h]
  | succ k ih =>
      rw [entryAfter, ih]
      simp only [fixedWindowCheck]
      rw [if_neg (by omega)]
      by_cases hk : limit ≤ min (k + 1) limit
      · rw [if_pos hk]
        have : min (k + 1) limit = limit := by omega
        simp [this, Nat.min_eq_right (by omega : limit ≤ k + 1 + 1)]
      · rw [if_neg hk]
        have h1 : min (k + 1) limit = k + 1 := by omega
        have h2 : min (k + 1 + 1) limit = k + 2 := by omega
        simp [h1, h2]

theorem nthCallResult_allowed (n now limit windowMs : Nat) (h : 1 ≤ limit)
    (hn : n < limit) :
    nthCallResult n now limit windowMs =
      { allowed := true, remaining := (limit : Int) - (n + 1), resetAt := now + windowMs } := by
  cases n with
  | zero => simp [nthCallResult, entryAfter, fixedWindowCheck]
  | succ k =>
      rw [nthCallResult, entryAfter_succ_eq _ _ _ _ h]
      have h1 : min (k + 1) limit = k + 1 := by omega
      simp only [fixedWindowCheck, h1]
      rw [if_neg (by omega), if_neg (by omega)]
      simp

theorem nthCallResult_denied (n now limit windowMs : Nat) (h : 1 ≤ limit)
    (hn : limit ≤ n) :
    nthCallResult n now limit windowMs =
      { allowed := false, remaining := 0, resetAt := now + windowMs } := by
  cases n with
  | zero => omega
  | succ k =>
      rw [nthCallResult, entryAfter_succ_eq _ _ _ _ h]
      have h1 : min (k + 1) limit = limit := by omega
      simp only [fixedWindowCheck, h1]
      rw [if_neg (by omega), if_pos (by omega)]

theorem fixedWindowCheck_expired (e : RateLimitEntry) (now limit windowMs : Nat)
    (h : e.resetTime < now) :
    fixedWindowCheck (some e) now limit windowMs =
      ({ allowed := true, remaining := (limit : Int) - 1, resetAt := now + windowMs },
        { count := 1, resetTime := now + windowMs }) := by
  simp [fixedWindowCheck, h]

/-! ## Rate-limit response fragments shared by the routes. -/

/-- `Math.ceil((resetAt - Date.now()) / 1000)` on naturals (used for the
`retry_after` field of a 429 response; `now ≤ resetAt` inside a window). -/
def retryAfterSeconds (resetAt now : Nat) : Nat :=
  (resetAt - now + 999) / 1000

/-- The `X-RateLimit-Remaining` / `X-RateLimit-Reset` headers attached to a
successful response. -/
def rlHeaders (rl : RateLimitResult) : List (String × String) :=
  [("X-RateLimit-Remaining", toString rl.remaining),
   ("X-RateLimit-Reset", toString rl.resetAt)]

/-- `metadata?.source_tokens_estimate || Math.ceil(len / 4)` — a missing or
zero model-reported estimate falls back to the length-based approximation. -/
def tokenEstimate (reported : Option Nat) (sanitizedLen : Nat) : Nat :=
  match reported with
  | some n => if n = 0 then (sanitizedLen + 3) / 4 else n
  | none => (sanitizedLen + 3) / 4

/-! ## Model router (`lib/modelRouter.ts`). -/

/-- `taskModels[task] || globalModel || defaultModels[task]` — the env
override chain of `getModel`, with JavaScript truthiness on the optional
environment variables. -/
def getModelId (taskEnv globalEnv : Option String) (defaultModel : String) : String :=
  orDefault taskEnv (orDefault globalEnv defaultModel)

/-- `isValidModel` from `lib/modelRouter.ts`: a non-empty string containing
a `/` and longer than 3 characters.  (No route ever calls it.) -/
def isValidModel (model : String) : Bool :=
  if model = "" then false
  else model.data.contains '/' && decide (model.length > 3)

/-- The per-request model override applied by every route:
`if (body.model && body.model !== "auto") modelConfig.model = body.model` —
the body's model is used verbatim whenever it is a non-empty string other
than `"auto"`; otherwise the task's configured model is kept. -/
def selectModel (configuredModel : String) (bodyModel : Option String) : String :=
  match bodyModel with
  | some m => if m ≠ "" ∧ m ≠ "auto" then m else configuredModel
  | none => configuredModel

/-! ## MCQ route: LLM-response handling (`app/api/mcq/route.ts`). -/

/-- One item of the parsed LLM `mcqs` array, with every field optional
(the LLM output is untyped JSON). -/
structure McqItemJson where
  id : Option Int
  question : Option String
  options : Option (List String)
  correct : Option String
  explanation : Option String
  deriving Repr, DecidableEq

/-- A validated MCQ as returned to the client. -/
structure MCQ where
  id : Int
  question : String
  options : List String
  correct : String
  explanation : Option String
  deriving Repr, DecidableEq

/-- The parsed top-level LLM JSON object for the mcq route (the fields the
route reads). -/
structure McqLlmJson where
  status : Option String
  error_code : Option String
  message : Option String
  mcqs : Option (List McqItemJson)
  source_tokens_estimate : Option Nat
  deriving Repr, DecidableEq

/-- `item.id || "unknown"` as interpolated into the thrown error messages. -/
def mcqItemIdText (id : Option Int) : String :=
  match id with
  | some n => if n = 0 then "unknown" else toString n
  | none => "unknown"

/-- Validation and formatting of a single MCQ item — the body of the `map`
callback in the mcq route's success branch.  A thrown `Error` is modelled
as `Except.error` with the thrown message. -/
def mcqFormatItem (includeExplanations : Bool) (item : McqItemJson) : Except String MCQ :=
  if orDefault item.question "" = "" then
    .error ("Question " ++ mcqItemIdText item.id ++ " is missing question text")
  else
    match item.options with
    | some opts =>
        if opts.length = 4 then
          if orDefault item.correct "" = "" then
            .error ("Question " ++ mcqItemIdText item.id ++
              " must have a valid correct answer (A, B, C, or D)")
          else if strToUpper (orDefault item.correct "") ∈ ["A", "B", "C", "D"] then
            .ok { id := (match item.id with | some n => n | none => 0),
                  question := jsTrim (orDefault item.question ""),
                  options := opts.map jsTrim,
                  correct := strToUpper (orDefault item.correct ""),
                  explanation :=
                    if includeExplanations ∧ truthy item.explanation then
                      some (jsTrim (orDefault item.explanation ""))
                    else none }
          else
            .error ("Question " ++ mcqItemIdText item.id ++
              " must have a valid correct answer (A, B, C, or D)")
        else
          .error ("Question " ++ mcqItemIdText item.id ++ " must have exactly 4 options")
    | none =>
        .error ("Question " ++ mcqItemIdText item.id ++ " must have exactly 4 options")

/-- `mcqsArray.map(...)` with a throwing callback: the first invalid item
aborts the whole map with its error; otherwise all formatted items are
produced, in order. -/
def mcqFormatItems (includeExplanations : Bool) :
    List McqItemJson → Except String (List MCQ)
  | [] => .ok []
  | item :: rest =>
      match mcqFormatItem includeExplanations item with
      | .error e => .error e
      | .ok m =>
          match mcqFormatItems includeExplanations rest with
          | .error e => .error e
          | .ok ms => .ok (m :: ms)

/-- The checks the route applies to one item, as a boolean predicate:
truthy question, an options array of exactly 4 entries, and a truthy
correct answer whose uppercasing is one of A/B/C/D. -/
def mcqItemValid (item : McqItemJson) : Bool :=
  truthy item.question &&
  (match item.options with | some opts => opts.length = 4 | none => false) &&
  truthy item.correct &&
  decide (strToUpper (orDefault item.correct "") ∈ ["A", "B", "C", "D"])

/-- The mcq route's response to one request, after the LLM reply has been
parsed as JSON (production mode: a thrown error reaches the outer catch and
becomes a generic 500 via `toSafeError`). -/
structure McqRouteResult where
  status : Nat
  error : Option String
  error_code : Option String
  mcqs : Option (List MCQ)
  source_tokens : Option Nat
  headers : List (String × String)
  deriving Repr, DecidableEq

/-- The mcq route's handling of the parsed LLM object (lines 310–457 of
`app/api/mcq/route.ts`, object shape; production mode for the catch-all):

* `status === "ERROR"`: `INSUFFICIENT_CONTEXT` → HTTP 400 with the code and
  message, any other code → HTTP 500 with the code and message;
* `status === "OK"` with an `mcqs` array: empty array → 400; otherwise the
  throwing per-item map, whose failure lands in the outer catch → 500;
  success → 200 with the formatted MCQs and the rate-limit headers;
* anything else → thrown "Invalid response format" → 500. -/
def mcqHandleParsed (includeExplanations : Bool) (sanitizedLen : Nat)
    (rl : RateLimitResult) (p : McqLlmJson) : McqRouteResult :=
  if p.status = some "ERROR" then
    if orDefault p.error_code "UNKNOWN_ERROR" = "INSUFFICIENT_CONTEXT" then
      { status := 400, error := some (orDefault p.message "Failed to generate MCQs"),
        error_code := some (orDefault p.error_code "UNKNOWN_ERROR"),
        mcqs := none, source_tokens := none, headers := [] }
    else
      { status := 500, error := some (orDefault p.message "Failed to generate MCQs"),
        error_code := some (orDefault p.error_code "UNKNOWN_ERROR"),
        mcqs := none, source_tokens := none, headers := [] }
  else
    match p.mcqs with
    | some items =>
        if p.status = some "OK" then
          if items.length = 0 then
            { status := 400,
              error := some "No MCQs were generated. The text may not contain enough information.",
              error_code := none, mcqs := none, source_tokens := none, headers := [] }
          else
            match mcqFormatItems includeExplanations items with
            | .ok formatted =>
                { status := 200, error := none, error_code := none,
                  mcqs := some formatted,
                  source_tokens := some (tokenEstimate p.source_tokens_estimate sanitizedLen),
                  headers := rlHeaders rl }
            | .error _ =>
                { status := 500, error := some "Failed to generate MCQs. Please try again.",
                  error_code := none, mcqs := none, source_tokens := none, headers := [] }
        else
          { status := 500, error := some "Failed to generate MCQs. Please try again.",
            error_code := none, mcqs := none, source_tokens := none, headers := [] }
    | none =>
        { status := 500, error := some "Failed to generate MCQs. Please try again.",
          error_code := none, mcqs := none, source_tokens := none, headers := [] }

/-! ## Flashcards route: LLM-response handling (`app/api/flashcards/route.ts`). -/

/-- One raw item of the parsed LLM `flashcards` array. -/
structure FlashRawCard where
  id : Option Int
  type : Option String
  front : Option String
  back : Option String
  deriving Repr, DecidableEq

/-- A flashcard as returned to the client. -/
structure Flashcard where
  id : Int
  type : String
  front : String
  back : String
  deriving Repr, DecidableEq

/-- The parsed top-level LLM JSON object for the flashcards route. -/
structure FlashLlmJson where
  status : Option String
  error_code : Option String
  message : Option String
  flashcards : Option (List FlashRawCard)
  tokens_estimate : Option Nat
  deriving Repr, DecidableEq

/-- The coercion applied to each raw card (`id: card.id || index + 1`,
`type: card.type || "concept"`, `front`/`back` coerced to trimmed strings). -/
def flashCoerce (index : Nat) (card : FlashRawCard) : Flashcard :=
  { id := (match card.id with
           | some n => if n = 0 then (index : Int) + 1 else n
           | none => (index : Int) + 1),
    type := orDefault card.type "concept",
    front := jsTrim (orDefault card.front ""),
    back := jsTrim (orDefault card.back "") }

/-- `parsedResponse.flashcards.map(coerce).filter(card => card.front && card.back)` —
coerce every item, then keep only cards whose front and back are non-empty
after trimming (lenient, partial-success). -/
def flashFormat (cards : List FlashRawCard) : List Flashcard :=
  ((cards.enum.map (fun p => flashCoerce p.1 p.2)).filter
    (fun c => c.front ≠ "" ∧ c.back ≠ ""))

/-- The metadata block of a successful flashcards response. -/
structure FlashMetadata where
  learning_level : String
  total_cards : Nat
  concept_cards : Nat
  application_cards : Nat
  trick_cards : Nat
  tokens_estimate : Nat
  deriving Repr, DecidableEq

/-- The flashcards route's response to one request after JSON parsing
(production mode for the catch-all). -/
structure FlashRouteResult where
  status : Nat
  error : Option String
  error_code : Option String
  flashcards : Option (List Flashcard)
  metadata : Option FlashMetadata
  headers : List (String × String)
  deriving Repr, DecidableEq

/-- The flashcards route's handling of the parsed LLM object (lines
330–397 of `app/api/flashcards/route.ts`):

* `status === "ERROR"` → HTTP 400 with the message and the reply's
  `error_code`, whatever that code is;
* `status === "OK"` with a `flashcards` array → coerce-and-filter; an empty
  result → 400, otherwise 200 with per-type counts,
  `total_cards = flashcards.length` and the rate-limit headers;
* anything else → thrown "Invalid response format" → 500. -/
def flashHandleParsed (learningLevel : String) (sanitizedLen : Nat)
    (rl : RateLimitResult) (p : FlashLlmJson) : FlashRouteResult :=
  if p.status = some "ERROR" then
    { status := 400, error := some (orDefault p.message "Failed to generate flashcards"),
      error_code := p.error_code, flashcards := none, metadata := none, headers := [] }
  else
    match p.flashcards with
    | some rawCards =>
        if p.status = some "OK" then
          if (flashFormat rawCards).length = 0 then
            { status := 400, error := some "No valid flashcards were generated.",
              error_code := none, flashcards := none, metadata := none, headers := [] }
          else
            { status := 200, error := none, error_code := none,
              flashcards := some (flashFormat rawCards),
              metadata := some
                { learning_level := learningLevel,
                  total_cards := (flashFormat rawCards).length,
                  concept_cards := (flashFormat rawCards).countP (fun c => c.type = "concept"),
                  application_cards :=
                    (flashFormat rawCards).countP (fun c => c.type = "application"),
                  trick_cards := (flashFormat rawCards).countP (fun c => c.type = "trick"),
                  tokens_estimate := tokenEstimate p.tokens_estimate sanitizedLen },
              headers := rlHeaders rl }
        else
          { status := 500, error := some "Failed to generate flashcards. Please try again.",
            error_code := none, flashcards := none, metadata := none, headers := [] }
    | none =>
        { status := 500, error := some "Failed to generate flashcards. Please try again.",
          error_code := none, flashcards := none, metadata := none, headers := [] }

/-! ## Concept-booster route: the LLM-error branch (`app/api/concept-booster/route.ts`,
lines 528–536). -/

/-- A reduced response record for the concept-booster error branch. -/
structure BoostErrorResult where
  status : Nat
  error : String
  error_code : Option String
  deriving Repr, DecidableEq

/-- The concept-booster route on a parsed reply with `status === "ERROR"`:
always HTTP 400, message defaulted, `error_code` passed through. -/
def boostHandleError (message error_code : Option String) : BoostErrorResult :=
  { status := 400, error := orDefault message "Failed to generate content",
    error_code := error_code }

/-- The fields of the parsed concept-booster LLM reply that the route
inspects; on success the parsed payload is echoed back unchanged. -/
structure BoostLlmJson where
  status : Option String
  error_code : Option String
  message : Option String
  deriving Repr, DecidableEq

/-- The concept-booster route's response to one request after JSON parsing
(production mode for the catch-all). -/
structure BoostRouteResult where
  status : Nat
  error : Option String
  error_code : Option String
  payload : Option BoostLlmJson
  headers : List (String × String)
  deriving Repr, DecidableEq

/-- The concept-booster route's handling of the parsed LLM object
(`app/api/concept-booster/route.ts`, lines 527–552 plus the catch-all):

* `status === "ERROR"` → HTTP 400 with the defaulted message and the
  reply's `error_code`, no rate-limit headers;
* `status === "OK"` → HTTP 200 echoing the parsed payload with the
  `X-RateLimit-Remaining`/`X-RateLimit-Reset` headers from this request's
  check (lines 544–549; `sourceTokens` is computed but unused since
  history saving was removed);
* anything else → thrown `"Invalid response format"`, re-thrown by the
  parse catch, turned into a 500 with the route's fallback message by the
  outer catch. -/
def boostHandleParsed (rl : RateLimitResult) (p : BoostLlmJson) : BoostRouteResult :=
  if p.status = some "ERROR" then
    { status := 400, error := some (orDefault p.message "Failed to generate content"),
      error_code := p.error_code, payload := none, headers := [] }
  else if p.status = some "OK" then
    { status := 200, error := none, error_code := none, payload := some p,
      headers := rlHeaders rl }
  else
    { status := 500, error := some "Failed to process request. Please try again.",
      error_code := none, payload := none, headers := [] }

/-! ## Error logger (`lib/errorHandler`, `logError`).

`logError` builds `logData = { error, name, ...context, stack? }` and
serializes it with a `JSON.stringify` replacer that substitutes
`"[REDACTED]"` for a value when (a) the value is a **string** and (b) the
lower-cased key contains `"password"`, `"secret"`, `"key"`, `"token"` or
`"auth"`.  JSON values are modelled by a mutual inductive so that the
replacer's recursive traversal is structural. -/

mutual

inductive Json where
  | str (s : String)
  | num (n : Int)
  | bool (b : Bool)
  | null
  | arr (items : JsonArr)
  | obj (fields : JsonObj)
  deriving Repr

inductive JsonArr where
  | nil
  | cons (hd : Json) (tl : JsonArr)
  deriving Repr

inductive JsonObj where
  | nil
  | cons (key : String) (val : Json) (tl : JsonObj)
  deriving Repr

end

/-- `String.prototype.includes` on character lists. -/
def infixOfCL (pat : List Char) : List Char → Bool
  | [] => decide (pat = [])
  | c :: rest => pat.isPrefixOf (c :: rest) || infixOfCL pat rest

/-- `key.toLowerCase().includes("password") || ... || includes("auth")` —
the key test of the redaction replacer. -/
def sensitiveKey (k : String) : Bool :=
  let lk : List Char := k.data.map Char.toLower
  infixOfCL "password".data lk || infixOfCL "secret".data lk ||
    infixOfCL "key".data lk || infixOfCL "token".data lk || infixOfCL "auth".data lk

mutual

/-- The `JSON.stringify(logData, replacer)` traversal: the replacer turns a
string value under a sensitive key into `"[REDACTED]"` and returns every
other value unchanged (in particular numbers, booleans and whole
objects/arrays under sensitive keys pass through), after which
serialization recurses into object members and array elements with their
own keys. -/
def redactVal (k : String) : Json → Json
  | .str s => .str (if sensitiveKey k then "[REDACTED]" else s)
  | .num n => .num n
  | .bool b => .bool b
  | .null => .null
  | .arr items => .arr (redactArr 0 items)
  | .obj fields => .obj (redactObj fields)

/-- Array elements are visited with their index as the key. -/
def redactArr (i : Nat) : JsonArr → JsonArr
  | .nil => .nil
  | .cons v tl => .cons (redactVal (toString i) v) (redactArr (i + 1) tl)

/-- Object members are visited with their own key. -/
def redactObj : JsonObj → JsonObj
  | .nil => .nil
  | .cons key v tl => .cons key (redactVal key v) (redactObj tl)

end

/-- The whole payload is serialized starting from the root with key `""`. -/
def redactTop (j : Json) : Json := redactVal "" j

mutual

/-- Checks that every string value stored under a sensitive key, at any
depth, is the redaction marker. -/
def redactedOkVal (k : String) : Json → Bool
  | .str s => !sensitiveKey k || decide (s = "[REDACTED]")
  | .num _ => true
  | .bool _ => true
  | .null => true
  | .arr items => redactedOkArr 0 items
  | .obj fields => redactedOkObj fields

def redactedOkArr (i : Nat) : JsonArr → Bool
  | .nil => true
  | .cons v tl => redactedOkVal (toString i) v && redactedOkArr (i + 1) tl

def redactedOkObj : JsonObj → Bool
  | .nil => true
  | .cons key v tl => redactedOkVal key v && redactedOkObj tl

end

mutual

theorem redactVal_ok : ∀ (k : String) (v : Json), redactedOkVal k (redactVal k v) = true
  | k, .str s => by
      by_cases h : sensitiveKey k = true <;> simp [redactVal, redactedOkVal, h]
  | _, .num _ => by simp [redactVal, redactedOkVal]
  | _, .bool _ => by simp [redactVal, redactedOkVal]
  | _, .null => by simp [redactVal, redactedOkVal]
  | k, .arr items => by
      simp only [redactVal, redactedOkVal]
      exact redactArr_ok 0 items
  | k, .obj fields => by
      simp only [redactVal, redactedOkVal]
      exact redactObj_ok fields

theorem redactArr_ok : ∀ (i : Nat) (l : JsonArr), redactedOkArr i (redactArr i l) = true
  | _, .nil => by simp [redactArr, redactedOkArr]
  | i, .cons v tl => by
      simp only [redactArr, redactedOkArr, Bool.and_eq_true]
      exact ⟨redactVal_ok _ v, redactArr_ok (i + 1) tl⟩

theorem redactObj_ok : ∀ (l : JsonObj), redactedOkObj (redactObj l) = true
  | .nil => by simp [redactObj, redactedOkObj]
  | .cons key v tl => by
      simp only [redactObj, redactedOkObj, Bool.and_eq_true]
      exact ⟨redactVal_ok key v, redactObj_ok tl⟩

end

/-- Append an optional string field (`...context` spreads only the keys the
caller supplied; `JSON.stringify` drops `undefined` members). -/
def consOptField (k : String) (v : Option String) (rest : JsonObj) : JsonObj :=
  match v with
  | some s => .cons k (.str s) rest
  | none => rest

/-- The `logData` object that `logError` builds:
`{ error, name, ...context }` plus `stack` in development mode. -/
def logErrorData (errorMessage errorName : String)
    (route operation userId requestId devStack : Option String) : JsonObj :=
  .cons "error" (.str errorMessage) (.cons "name" (.str errorName)
    (consOptField "route" route (consOptField "operation" operation
      (consOptField "userId" userId (consOptField "requestId" requestId
        (consOptField "stack" devStack .nil))))))

/-- The redacted payload `logError` actually serializes to the console. -/
def logErrorSanitized (errorMessage errorName : String)
    (route operation userId requestId devStack : Option String) : Json :=
  redactTop (.obj (logErrorData errorMessage errorName route operation userId
    requestId devStack))

/-! ## Input sanitizer (`lib/sanitize.ts`, `sanitizeInput`).

Each `String.prototype.replace(regex, ...)` pass is embedded as a scan that
walks the string left to right and, at each position, asks a *matcher*
whether the JavaScript regex would match there and how many characters the
(backtracking, greedy, first-alternative) engine would consume.  The
matcher receives the previous character so that `\b` assertions can be
decided.  Replacement text inserted by one pass is never rescanned by the
same pass (exactly like `replace`), but later passes do see it. -/

/-- ASCII apostrophe (U+0027). -/
def apos : Char := Char.ofNat 39

/-- ASCII backquote (U+0060). -/
def btick : Char := Char.ofNat 96

/-- The control characters stripped by step 1:
`[\x00-\x08\x0B-\x0C\x0E-\x1F\x7F]` (newline, carriage return and tab
survive). -/
def isCtrlStrip (c : Char) : Bool :=
  c.toNat ≤ 0x08 || c.toNat = 0x0B || c.toNat = 0x0C ||
    (0x0E ≤ c.toNat && c.toNat ≤ 0x1F) || c.toNat = 0x7F

/-- JavaScript `\w`. -/
def isWordChar (c : Char) : Bool :=
  (97 ≤ c.toNat && c.toNat ≤ 122) || (65 ≤ c.toNat && c.toNat ≤ 90) ||
    (48 ≤ c.toNat && c.toNat ≤ 57) || c.toNat = 95

/-- JavaScript `\d`. -/
def isDigitChar (c : Char) : Bool := 48 ≤ c.toNat && c.toNat ≤ 57

/-- The line terminators, which `.` does not match. -/
def isLineTerm (c : Char) : Bool :=
  c.toNat = 10 || c.toNat = 13 || c.toNat = 0x2028 || c.toNat = 0x2029

/-- `[A-Za-z0-9_-]` (the API-key run class). -/
def isRunChar (c : Char) : Bool := isWordChar c || c = '-'

/-- `[A-Za-z0-9]`. -/
def isAlnum (c : Char) : Bool :=
  (97 ≤ c.toNat && c.toNat ≤ 122) || (65 ≤ c.toNat && c.toNat ≤ 90) ||
    (48 ≤ c.toNat && c.toNat ≤ 57)

/-- `[​-‍﻿]` — the zero-width characters of step 9. -/
def isZeroWidth (c : Char) : Bool :=
  (0x200B ≤ c.toNat && c.toNat ≤ 0x200D) || c.toNat = 0xFEFF

/-- ASCII lower-casing (what the `/i` flag and `toLowerCase`/`toUpperCase`
do on the source's ASCII patterns). -/
def lowerAscii (c : Char) : Char :=
  if 65 ≤ c.toNat && c.toNat ≤ 90 then Char.ofNat (c.toNat + 32) else c

/-- Case-insensitive prefix test; the pattern is given lower-case, the
subject is lowered character-wise. -/
def ciPrefix : List Char → List Char → Bool
  | [], _ => true
  | _ :: _, [] => false
  | p :: ps, c :: cs => (lowerAscii c = p) && ciPrefix ps cs

/-- Length of the maximal prefix satisfying `p` (greedy `X*` over a
character class). -/
def spanLen (p : Char → Bool) : List Char → Nat
  | [] => 0
  | c :: rest => if p c then spanLen p rest + 1 else 0

/-- `\b` on the left of a word-initial pattern: the previous character is
absent or not a word character. -/
def boundaryBefore (prev : Option Char) : Bool :=
  match prev with
  | none => true
  | some c => !isWordChar c

/-- `\b` on the right of a just-matched word: the next character is absent
or not a word character. -/
def boundaryAfterAt : List Char → Bool
  | [] => true
  | c :: _ => !isWordChar c

/-- Head-equality test on a character list. -/
def headIs (ch : Char) : List Char → Bool
  | c :: _ => c = ch
  | [] => false

/-- A matcher: previous character, rest of the string; returns the length
the regex engine would consume for a match starting here, if any. -/
abbrev Matcher := Option Char → List Char → Option Nat

/-- The scan implementing `String.prototype.replace` with a global regex:
leftmost matches, non-overlapping, resuming right after each match.  The
fuel is the number of scan steps; each step consumes at least one input
character, so `fuel = length` suffices (structural recursion on the fuel
keeps the definition kernel-reducible). -/
def replaceScan (m : Matcher) (rep : List Char) : Nat → Option Char → List Char → List Char
  | 0, _, s => s
  | _ + 1, _, [] => []
  | fuel + 1, prev, c :: rest =>
      match m prev (c :: rest) with
      | some (n + 1) =>
          rep ++ replaceScan m rep fuel (some ((c :: rest).getD n c)) (List.drop n rest)
      | _ => c :: replaceScan m rep fuel (some c) rest

/-- `s.replace(regex, rep)` for a global regex embodied by `m`. -/
def replaceAll (m : Matcher) (rep : List Char) (s : List Char) : List Char :=
  replaceScan m rep s.length none s

/-- Matcher for a single-character class. -/
def classMatch (p : Char → Bool) : Matcher := fun _ s =>
  match s with
  | c :: _ => if p c then some 1 else none
  | [] => none

/-- First literal alternative (exact characters) that is a prefix, in the
order the source lists them. -/
def firstLit : List (List Char) → List Char → Option Nat
  | [], _ => none
  | l :: ls, s => if List.isPrefixOf l s then some l.length else firstLit ls s

/-- First case-insensitive literal alternative that is a prefix. -/
def firstCiLit : List (List Char) → List Char → Option Nat
  | [], _ => none
  | l :: ls, s => if ciPrefix l s then some l.length else firstCiLit ls s

/-- First alternative that matches as a whole word (case-insensitive
prefix followed by a right word boundary); the left boundary is checked by
the caller. -/
def firstKw : List (List Char) → List Char → Option Nat
  | [], _ => none
  | k :: ks, s =>
      if ciPrefix k s && boundaryAfterAt (s.drop k.length) then some k.length
      else firstKw ks s

/-- `\b(w1|w2|...)\b` with the `i` flag: alternatives tried in order, each
with both word boundaries (so `EXEC` loses to `EXECUTE` on the subject
`execute`, as the backtracking engine does). -/
def kwAltMatch (kws : List (List Char)) : Matcher := fun prev s =>
  if boundaryBefore prev then firstKw kws s else none

/-- Index of the first (case-insensitive) occurrence of `pat`. -/
def findCiSub (pat : List Char) : List Char → Option Nat
  | [] => if pat.isEmpty then some 0 else none
  | c :: rest =>
      if ciPrefix pat (c :: rest) then some 0
      else (findCiSub pat rest).map (· + 1)

/-- Index of the first occurrence of the character `ch`. -/
def findCharIdx (ch : Char) : List Char → Option Nat
  | [] => none
  | c :: rest => if c = ch then some 0 else (findCharIdx ch rest).map (· + 1)

/-- Index of the last occurrence of the character `ch` (greedy `.*ch`). -/
def lastCharIdx (ch : Char) : List Char → Option Nat
  | [] => none
  | c :: rest =>
      match lastCharIdx ch rest with
      | some j => some (j + 1)
      | none => if c = ch then some 0 else none

/-- `<script\b[^<]*(?:(?!<\/script>)<[^<]*)*<\/script>` (`/gi`): from
`<script` at a right word boundary up to and including the **first**
subsequent `</script>`; without a closing tag there is no match. -/
def scriptBlockMatch : Matcher := fun _ s =>
  if ciPrefix "<script".data s && boundaryAfterAt (s.drop 7) then
    match findCiSub "</script>".data (s.drop 7) with
    | some i => some (7 + i + 9)
    | none => none
  else none

/-- `<style\b[^<]*(?:(?!<\/style>)<[^<]*)*<\/style>` (`/gi`), same shape. -/
def styleBlockMatch : Matcher := fun _ s =>
  if ciPrefix "<style".data s && boundaryAfterAt (s.drop 6) then
    match findCiSub "</style>".data (s.drop 6) with
    | some i => some (6 + i + 8)
    | none => none
  else none

/-- `<[^>]+>`: from `<` to the first `>` with at least one character in
between. -/
def htmlTagMatch : Matcher := fun _ s =>
  match s with
  | c :: rest =>
      if c = '<' then
        match findCharIdx '>' rest with
        | some i => if i = 0 then none else some (i + 2)
        | none => none
      else none
  | [] => none

/-- The replacement marker of the blocking passes. -/
def blockedRep : List Char := "[BLOCKED]".data

/-- The SQL keywords of step 3, in source order. -/
def sqlKeywords : List (List Char) :=
  ["select".data, "insert".data, "update".data, "delete".data,
    "drop".data, "create".data, "alter".data, "exec".data, "execute".data,
    "union".data, "script".data]

/-- The SQL keyword alternation of step 3. -/
def sqlKwMatch : Matcher := kwAltMatch sqlKeywords

/-- `('|(\\')|(;)|(\;)|(--)|(\\--)|(\/\*)|(\\\/\*)|(\*\/)|(\\\*\/))` —
ordered literal alternatives. -/
def sqlLitMatch : Matcher := fun _ s =>
  firstLit [[apos], ['\\', apos], [';'], ['\\', ';'], ['-', '-'], ['\\', '-', '-'],
    ['/', '*'], ['\\', '/', '*'], ['*', '/'], ['\\', '*', '/']] s

/-- `\s*\d+\s*=\s*\d+` (all quantifiers effectively maximal-munch because
the involved classes are disjoint); returns the consumed length. -/
def numCompareTail (s : List Char) : Option Nat :=
  let k1 := spanLen isJsSpace s
  let s1 := s.drop k1
  let d1 := spanLen isDigitChar s1
  if d1 = 0 then none
  else
    let s2 := s1.drop d1
    let k2 := spanLen isJsSpace s2
    if headIs '=' (s2.drop k2) then
      let s4 := (s2.drop k2).drop 1
      let k3 := spanLen isJsSpace s4
      let d2 := spanLen isDigitChar (s4.drop k3)
      if d2 = 0 then none else some (k1 + d1 + k2 + 1 + k3 + d2)
    else none

/-- `\bOR\b\s*\d+\s*=\s*\d+` (`/gi`). -/
def sqlOrMatch : Matcher := fun prev s =>
  if boundaryBefore prev && ciPrefix ['o', 'r'] s && boundaryAfterAt (s.drop 2) then
    (numCompareTail (s.drop 2)).map (· + 2)
  else none

/-- `\bAND\b\s*\d+\s*=\s*\d+` (`/gi`). -/
def sqlAndMatch : Matcher := fun prev s =>
  if boundaryBefore prev && ciPrefix ['a', 'n', 'd'] s && boundaryAfterAt (s.drop 3) then
    (numCompareTail (s.drop 3)).map (· + 3)
  else none

/-- End position (exclusive) of the **rightmost** `\bkw\b` occurrence in
`line`, scanning with the previous character threaded for the left
boundary (greedy `.*` backtracks from the right). -/
def lastKwEnd (kw : List Char) : Option Char → List Char → Nat → Option Nat
  | _, [], _ => none
  | prev, c :: rest, pos =>
      let here :=
        if boundaryBefore prev && ciPrefix kw (c :: rest) &&
            boundaryAfterAt ((c :: rest).drop kw.length) then
          some (pos + kw.length)
        else none
      match lastKwEnd kw (some c) rest (pos + 1) with
      | some j => some j
      | none => here

/-- `\bUNION\b.*\bSELECT\b` (`/gi`): `union` at word boundaries, then the
greedy dot runs to the end of the line and backtracks to the rightmost
`select` at word boundaries. -/
def sqlUnionSelectMatch : Matcher := fun prev s =>
  if boundaryBefore prev && ciPrefix "union".data s && boundaryAfterAt (s.drop 5) then
    let line := (s.drop 5).takeWhile (fun c => !isLineTerm c)
    match lastKwEnd "select".data (some 'n') line 0 with
    | some j => some (5 + j)
    | none => none
  else none

/-- `[;&|`$(){}[\]]` — the shell metacharacter class (step 4, pattern 1). -/
def shellMetaMatch : Matcher :=
  classMatch (fun c => c = ';' || c = '&' || c = '|' || c = btick || c = '$' ||
    c = '(' || c = ')' || c = '{' || c = '}' || c = '[' || c = ']')

/-- The shell command names of step 4, in source order. -/
def cmdWords : List (List Char) :=
  ["cat".data, "ls".data, "pwd".data, "whoami".data, "id".data,
    "uname".data, "ps".data, "kill".data, "rm".data, "mv".data, "cp".data,
    "chmod".data, "chown".data]

/-- `\b(cat|ls|pwd|whoami|id|uname|ps|kill|rm|mv|cp|chmod|chown)\b` (`/gi`). -/
def cmdWordMatch : Matcher := kwAltMatch cmdWords

/-- `\|\s*(nc|netcat|curl|wget|bash|sh|python|perl|ruby)\b` (`/gi`). -/
def pipedCmdMatch : Matcher := fun _ s =>
  match s with
  | c :: rest =>
      if c = '|' then
        let k := spanLen isJsSpace rest
        match firstKw ["nc".data, "netcat".data, "curl".data, "wget".data,
            "bash".data, "sh".data, "python".data, "perl".data, "ruby".data]
            (rest.drop k) with
        | some n => some (1 + k + n)
        | none => none
      else none
  | [] => none

/-- `>\s*\/dev\/(null|tcp|udp)` (`/gi`). -/
def devRedirectMatch : Matcher := fun _ s =>
  match s with
  | c :: rest =>
      if c = '>' then
        let k := spanLen isJsSpace rest
        if ciPrefix "/dev/".data (rest.drop k) then
          match firstCiLit ["null".data, "tcp".data, "udp".data] ((rest.drop k).drop 5) with
          | some n => some (1 + k + 5 + n)
          | none => none
        else none
      else none
  | [] => none

/-- `\$\{.*\}`: from `${` to the last `}` on the line. -/
def varExpMatch : Matcher := fun _ s =>
  match s with
  | c1 :: c2 :: rest =>
      if c1 = '$' && c2 = '{' then
        match lastCharIdx '}' (rest.takeWhile (fun c => !isLineTerm c)) with
        | some j => some (2 + j + 1)
        | none => none
      else none
  | _ => none

/-- `` `.*` ``: from a backquote to the last backquote on the line. -/
def backtickExprMatch : Matcher := fun _ s =>
  match s with
  | c :: rest =>
      if c = btick then
        match lastCharIdx btick (rest.takeWhile (fun ch => !isLineTerm ch)) with
        | some j => some (1 + j + 1)
        | none => none
      else none
  | [] => none

/-- `javascript:` (`/gi`). -/
def jsProtoMatch : Matcher := fun _ s =>
  if ciPrefix "javascript:".data s then some 11 else none

/-- `on\w+\s*=` (`/gi`) — inline event handlers, no word boundary. -/
def eventHandlerMatch : Matcher := fun _ s =>
  if ciPrefix ['o', 'n'] s then
    let w := spanLen isWordChar (s.drop 2)
    if w = 0 then none
    else
      let k := spanLen isJsSpace (s.drop (2 + w))
      if headIs '=' (s.drop (2 + w + k)) then some (2 + w + k + 1) else none
  else none

/-- `(name1|name2)\s*\(` (`/gi`) — a call-looking pattern such as
`eval\s*\(` or `(setTimeout|setInterval)\s*\(`. -/
def callMatch (alts : List (List Char)) : Matcher := fun _ s =>
  match firstCiLit alts s with
  | some n =>
      let k := spanLen isJsSpace (s.drop n)
      if headIs '(' (s.drop (n + k)) then some (n + k + 1) else none
  | none => none

/-- `base(member1|member2|...)` (`/gi`), e.g.
`document\.(cookie|write|location)`. -/
def dotMemberMatch (base : List Char) (members : List (List Char)) : Matcher := fun _ s =>
  if ciPrefix base s then
    match firstCiLit members (s.drop base.length) with
    | some n => some (base.length + n)
    | none => none
  else none

/-- Rightmost position (≥ the given start) in `run` where one of
`javascript:`/`data:`/`vbscript:` begins (the backtracking of the greedy
`[^\s]+`), together with the alternative's length. -/
def lastProtoPos : List Char → Nat → Option (Nat × Nat)
  | [], _ => none
  | c :: rest, q =>
      let here :=
        match firstCiLit ["javascript:".data, "data:".data, "vbscript:".data] (c :: rest) with
        | some n => some (q, n)
        | none => none
      match lastProtoPos rest (q + 1) with
      | some r => some r
      | none => here

/-- `https?:\/\/[^\s]+(javascript|data|vbscript):` (`/gi`). -/
def urlMatch : Matcher := fun _ s =>
  let base : Option Nat :=
    if ciPrefix "http".data s then
      if ciPrefix ['s'] (s.drop 4) && List.isPrefixOf "://".data (s.drop 5) then some 8
      else if List.isPrefixOf "://".data (s.drop 4) then some 7
      else none
    else none
  match base with
  | some b =>
      let run := (s.drop b).takeWhile (fun c => !isJsSpace c)
      match run with
      | [] => none
      | _ :: tail =>
          match lastProtoPos tail 1 with
          | some (q, n) => some (b + q + n)
          | none => none
  | none => none

/-- `\r?\n` (for `removeNewlines`). -/
def newlineMatch : Matcher := fun _ s =>
  match s with
  | c :: rest =>
      if c = '\r' && headIs '\n' rest then some 2
      else if c = '\n' then some 1
      else none
  | [] => none

/-- `\r\n`. -/
def crlfMatch : Matcher := fun _ s =>
  match s with
  | c :: rest => if c = '\r' && headIs '\n' rest then some 2 else none
  | [] => none

/-- ` {3,}` — a maximal run of three or more plain spaces. -/
def spaceRunMatch : Matcher := fun _ s =>
  let n := spanLen (fun c => c = ' ') s
  if 3 ≤ n then some n else none

/-- `(\.\.\/|\.\.\\|\.\.\/\.\.|\.\.\\\.\.)` — ordered alternatives (the
two longer ones are shadowed by their own prefixes). -/
def pathTraversalMatch : Matcher := fun _ s =>
  firstLit [['.', '.', '/'], ['.', '.', '\\'],
    ['.', '.', '/', '.', '.'], ['.', '.', '\\', '.', '.']] s

/-- `Bearer\s+[A-Za-z0-9_-]{20,}` (`/gi`). -/
def bearerMatch : Matcher := fun _ s =>
  if ciPrefix "bearer".data s then
    let k := spanLen isJsSpace (s.drop 6)
    if k = 0 then none
    else
      let r := spanLen isRunChar (s.drop (6 + k))
      if 20 ≤ r then some (6 + k + r) else none
  else none

/-- `sk-[A-Za-z0-9]{32,}` (`/gi`). -/
def skKeyMatch : Matcher := fun _ s =>
  if ciPrefix "sk-".data s then
    let r := spanLen isAlnum (s.drop 3)
    if 32 ≤ r then some (3 + r) else none
  else none

/-- `[A-Za-z0-9_-]{40,}` with the always-true callback check — any maximal
run of 40 or more key-like characters. -/
def longRunMatch : Matcher := fun _ s =>
  let r := spanLen isRunChar s
  if 40 ≤ r then some r else none

/-- The options object of `sanitizeInput` (absent fields are falsy;
`maxLength: 0` is falsy too and disables truncation). -/
structure SanitizeOptions where
  allowHtml : Bool := false
  maxLength : Option Nat := none
  removeNewlines : Bool := false
  deriving Repr, DecidableEq

/-- The full `sanitizeInput` pipeline on character lists, pass for pass in
source order. -/
def sanitizeList (opts : SanitizeOptions) (input : List Char) : List Char :=
  -- 1. control characters
  let s1 := input.filter (fun c => !isCtrlStrip c)
  -- 2. HTML removal and entity escaping (skipped when allowHtml)
  let s2 :=
    if opts.allowHtml then s1
    else
      let a := replaceAll scriptBlockMatch [] s1
      let b := replaceAll styleBlockMatch [] a
      let c := replaceAll htmlTagMatch [] b
      let d := replaceAll (classMatch (fun ch => ch = '&')) "&amp;".data c
      let e := replaceAll (classMatch (fun ch => ch = '<')) "&lt;".data d
      let f := replaceAll (classMatch (fun ch => ch = '>')) "&gt;".data e
      let g := replaceAll (classMatch (fun ch => ch = '"')) "&quot;".data f
      replaceAll (classMatch (fun ch => ch = apos)) "&#x27;".data g
  -- 3. SQL patterns
  let s3a := replaceAll sqlKwMatch blockedRep s2
  let s3b := replaceAll sqlLitMatch blockedRep s3a
  let s3c := replaceAll sqlOrMatch blockedRep s3b
  let s3d := replaceAll sqlAndMatch blockedRep s3c
  let s3 := replaceAll sqlUnionSelectMatch blockedRep s3d
  -- 4. command injection patterns
  let s4a := replaceAll shellMetaMatch blockedRep s3
  let s4b := replaceAll cmdWordMatch blockedRep s4a
  let s4c := replaceAll pipedCmdMatch blockedRep s4b
  let s4d := replaceAll devRedirectMatch blockedRep s4c
  let s4e := replaceAll varExpMatch blockedRep s4d
  let s4 := replaceAll backtickExprMatch blockedRep s4e
  -- 5. JavaScript injection patterns
  let s5a := replaceAll jsProtoMatch blockedRep s4
  let s5b := replaceAll eventHandlerMatch blockedRep s5a
  let s5c := replaceAll (callMatch ["eval".data]) blockedRep s5b
  let s5d := replaceAll (callMatch ["function".data]) blockedRep s5c
  let s5e := replaceAll (callMatch ["settimeout".data, "setinterval".data]) blockedRep s5d
  let s5f := replaceAll (dotMemberMatch "document.".data
    ["cookie".data, "write".data, "location".data]) blockedRep s5e
  let s5g := replaceAll (dotMemberMatch "window.".data
    ["location".data, "open".data]) blockedRep s5f
  let s5 := replaceAll (callMatch ["xmlhttprequest".data, "fetch".data]) blockedRep s5g
  -- 6. suspicious URLs
  let s6 := replaceAll urlMatch "[BLOCKED_URL]".data s5
  -- 7. newline removal / normalization
  let s7 :=
    if opts.removeNewlines then replaceAll newlineMatch [' '] s6
    else replaceAll (classMatch (fun c => c = '\r')) ['\n'] (replaceAll crlfMatch ['\n'] s6)
  -- 8. collapse runs of 3+ spaces to 2
  let s8 := replaceAll spaceRunMatch "  ".data s7
  -- 9. zero-width characters
  let s9 := s8.filter (fun c => !isZeroWidth c)
  -- 10. path traversal
  let s10 := replaceAll pathTraversalMatch "[BLOCKED_PATH]".data s9
  -- 11. API keys and tokens
  let s11a := replaceAll bearerMatch "[API_KEY_REMOVED]".data s10
  let s11b := replaceAll skKeyMatch "[API_KEY_REMOVED]".data s11a
  let s11 := replaceAll longRunMatch "[API_KEY_REMOVED]".data s11b
  -- 12. trim and maxLength
  let s12 := jsTrimList s11
  match opts.maxLength with
  | some m => if m ≠ 0 ∧ m < s12.length then s12.take m else s12
  | none => s12

/-- `sanitizeInput` on strings (string inputs only; the `typeof` guard for
non-string arguments returns `""` and is outside this model's input type). -/
def sanitizeInput (input : String) (opts : SanitizeOptions) : String :=
  ⟨sanitizeList opts input.data⟩

/-- `sanitizeTextInput`. -/
def sanitizeTextInput (input : String) (maxLength : Option Nat) : String :=
  sanitizeInput input { allowHtml := false, maxLength := maxLength, removeNewlines := false }

/-- `sanitizeSingleLineInput`. -/
def sanitizeSingleLineInput (input : String) (maxLength : Option Nat) : String :=
  sanitizeInput input { allowHtml := false, maxLength := maxLength, removeNewlines := true }

/-! ## Format route (`app/api/format/route.ts`).

The format route has **no** rate limiting: `POST` goes straight from the
API-key check to body parsing, sanitization, the upstream call and the
response; no `checkRateLimit`/`getRateLimiter` call appears in the file
and no `X-RateLimit-*` header is ever attached. -/

/-- The format route's response. -/
structure FormatResult where
  status : Nat
  formatted : Option String
  error : Option String
  headers : List (String × String)
  deriving Repr, DecidableEq

/-- The format route's `POST` handler on a well-formed JSON body
(`hasApiKey` is the `GROQ_API_KEY || OPENROUTER_API_KEY` check,
`llmContent` the upstream reply's content, `none` when absent). -/
def formatPOST (hasApiKey : Bool) (bodyText : Option String)
    (llmContent : Option String) : FormatResult :=
  if !hasApiKey then
    { status := 500, formatted := none,
      error := some "Server configuration error: API key not found", headers := [] }
  else
    if jsTrim (sanitizeTextInput (bodyText.getD "") (some 50000)) = "" then
      { status := 400, formatted := none,
        error := some "Text is required. Please provide valid content.", headers := [] }
    else
      if llmContent.getD "Unable to format text." = "" ∨
          llmContent.getD "Unable to format text." = "Unable to format text." then
        { status := 500, formatted := none,
          error := some "No formatted content received from AI", headers := [] }
      else
        { status := 200, formatted := some (llmContent.getD "Unable to format text."),
          error := none, headers := [] }

/-- The 429 gate shared by the three rate-limited routes: when the check
denies, respond `429` with `retry_after = Math.ceil((resetAt - now)/1000)`
before anything else happens. -/
def rateLimitGate (rl : RateLimitResult) (now : Nat) : Option (Nat × Nat) :=
  if rl.allowed then none else some (429, retryAfterSeconds rl.resetAt now)

/-! ## Iterated calls through the keyed store. -/

/-- The flashcards store after `n` requests from the same client at time
`now` (no cleanup runs), starting from the module-load state (empty map). -/
def storeAfterN (key : String) (now : Nat) : Nat → RateStore
  | 0 => []
  | n + 1 => (storeCheck false (storeAfterN key now n) key now 10 60000).2

/-- The result of the `(n+1)`-st request in that sequence. -/
def storeNthResult (key : String) (now : Nat) (n : Nat) : RateLimitResult :=
  (storeCheck false (storeAfterN key now n) key now 10 60000).1

theorem storeGet_storeSet_self (st : RateStore) (k : String) (e : RateLimitEntry) :
    storeGet (storeSet st k e) k = some e := by
  induction st with
  | nil => simp [storeSet, storeGet, List.find?]
  | cons hd tl ih =>
      by_cases h : hd.1 = k
      · simp [storeSet, h, storeGet, List.find?]
      · simpa [storeSet, h, storeGet, List.find?] using ih

theorem storeGet_storeSet_other (st : RateStore) (k k' : String) (e : RateLimitEntry)
    (h : k ≠ k') : storeGet (storeSet st k e) k' = storeGet st k' := by
  induction st with
  | nil => simp [storeSet, storeGet, List.find?, h]
  | cons hd tl ih =>
      by_cases hh : hd.1 = k
      · by_cases hk : hd.1 = k'
        · exact absurd (hh.symm.trans hk) h
        · simp [storeSet, hh, storeGet, List.find?, h, hk]
      · by_cases hk : hd.1 = k'
        · simp [storeSet, hh, storeGet, List.find?, hk, Ne.symm h]
        · simpa [storeSet, hh, storeGet, List.find?, hk] using ih

theorem storeGet_storeAfterN (key : String) (now : Nat) (n : Nat) :
    storeGet (storeAfterN key now n) key = entryAfter n now 10 60000 := by
  induction n with
  | zero => simp [storeAfterN, entryAfter, storeGet, List.find?]
  | succ k ih =>
      rw [storeAfterN, entryAfter]
      show storeGet (storeSet (storeAfterN key now k) key
        (fixedWindowCheck (storeGet (storeAfterN key now k) key) now 10 60000).2) key = _
      rw [storeGet_storeSet_self, ih]

theorem storeNthResult_eq (key : String) (now : Nat) (n : Nat) :
    storeNthResult key now n = nthCallResult n now 10 60000 := by
  show (fixedWindowCheck (storeGet (storeAfterN key now n) key) now 10 60000).1 = _
  rw [storeGet_storeAfterN]
  rfl

/-- The mcq route's check always runs against the fresh instance's empty
store, so it allows every request (cleanup of an empty map is the empty
map). -/
theorem mcqRateStep_allowed (doClean : Bool) (g : GlobalRateState) (ip : String)
    (now : Nat) :
    (mcqRateStep doClean g ip now).1 =
      { allowed := true, remaining := (10 : Int) - 1, resetAt := now + 60000 } ∧
    (mcqRateStep doClean g ip now).2 = g := by
  cases doClean <;>
    simp [mcqRateStep, storeCheck, storeCleanup, storeGet, List.find?,
      fixedWindowCheck, List.filter]

/-! ### Consecutive calls at arbitrary times inside one window. -/

/-- A placeholder result (only used as the `getD` default, never reached
under the index bounds of the lemmas below). -/
def dummyResult : RateLimitResult := { allowed := false, remaining := 0, resetAt := 0 }

/-- The results of a sequence of checks for one fixed client, one per call
time, threading the stored entry. -/
def resultsOfTimes (limit windowMs : Nat) : Option RateLimitEntry → List Nat → List RateLimitResult
  | _, [] => []
  | e, t :: ts =>
      let r := fixedWindowCheck e t limit windowMs
      r.1 :: resultsOfTimes limit windowMs (some r.2) ts

theorem resultsOfTimes_spec (L win : Nat) :
    ∀ (ts : List Nat) (c R : Nat), 1 ≤ c → c ≤ L → (∀ t ∈ ts, ¬ R < t) →
      ∀ n, n < ts.length →
        (resultsOfTimes L win (some ⟨c, R⟩) ts).getD n dummyResult =
          if c + n < L then
            { allowed := true, remaining := (L : Int) - (c + n + 1), resetAt := R }
          else
            { allowed := false, remaining := 0, resetAt := R } := by
  intro ts
  induction ts with
  | nil => intro c R _ _ _ n hn; simp at hn
  | cons t ts ih =>
      intro c R hc hcL hts n hn
      have hnotexp : ¬ R < t := hts t (by simp)
      by_cases hlim : L ≤ c
      · have hcheck : fixedWindowCheck (some ⟨c, R⟩) t L win =
            ({ allowed := false, remaining := 0, resetAt := R }, ⟨c, R⟩) := by
          simp [fixedWindowCheck, hnotexp, hlim]
        cases n with
        | zero =>
            simp only [resultsOfTimes, hcheck, List.getD_cons_zero]
            rw [if_neg (show ¬ c + 0 < L by omega)]
        | succ m =>
            have hm : m < ts.length := by simpa using hn
            have hrec := ih c R hc hcL (fun t ht => hts t (by simp [ht])) m hm
            simp only [resultsOfTimes, hcheck, List.getD_cons_succ]
            rw [hrec]
            have h1 : ¬ c + m < L := by omega
            have h2 : ¬ c + (m + 1) < L := by omega
            rw [if_neg h1, if_neg h2]
      · have hcheck : fixedWindowCheck (some ⟨c, R⟩) t L win =
            ({ allowed := true, remaining := (L : Int) - (c + 1), resetAt := R },
              ⟨c + 1, R⟩) := by
          simp [fixedWindowCheck, hnotexp, hlim]
        cases n with
        | zero =>
            simp only [resultsOfTimes, hcheck, List.getD_cons_zero]
            rw [if_pos (show c + 0 < L by omega)]
            norm_num
        | succ m =>
            have hm : m < ts.length := by simpa using hn
            have hrec := ih (c + 1) R (by omega) (by omega)
              (fun t ht => hts t (by simp [ht])) m hm
            simp only [resultsOfTimes, hcheck, List.getD_cons_succ]
            rw [hrec]
            by_cases hcm : c + (m + 1) < L
            · have hcm2 : c + 1 + m < L := by omega
              rw [if_pos hcm2, if_pos hcm]
              have h4 : ((c : Int) + 1 + m + 1) = ((c : Int) + (m + 1) + 1) := by ring
              simp only [Nat.cast_add, Nat.cast_one] at *
              rw [h4]
            · have hcm2 : ¬ c + 1 + m < L := by omega
              rw [if_neg hcm2, if_neg hcm]

/-- The results of `N = ts.length + 1` consecutive calls for one fixed
client starting from no stored entry: the first call at `t0`, the later
calls at the times `ts`.  (The opportunistic cleanup never evicts an
unexpired entry, so inside a window the per-key view used here coincides
with `MemoryRateLimiter.check` on the full store; `storeNthResult_eq`
makes the store-level connection explicit.) -/
def windowCallResults (L win t0 : Nat) (ts : List Nat) : List RateLimitResult :=
  resultsOfTimes L win none (t0 :: ts)

theorem windowCallResults_spec (L win t0 : Nat) (ts : List Nat) (hL : 1 ≤ L)
    (hts : ∀ t ∈ ts, t ≤ t0 + win) (n : Nat) (hn : n < ts.length + 1) :
    (windowCallResults L win t0 ts).getD n dummyResult =
      if n < L then
        { allowed := true, remaining := (L : Int) - (n + 1), resetAt := t0 + win }
      else
        { allowed := false, remaining := 0, resetAt := t0 + win } := by
  have hfirst : fixedWindowCheck none t0 L win =
      ({ allowed := true, remaining := (L : Int) - 1, resetAt := t0 + win },
        ⟨1, t0 + win⟩) := by
    simp [fixedWindowCheck]
  cases n with
  | zero =>
      simp only [windowCallResults, resultsOfTimes, hfirst, List.getD_cons_zero]
      rw [if_pos (by omega)]
      norm_num
  | succ m =>
      have hm : m < ts.length := by simpa using hn
      have hrec := resultsOfTimes_spec L win ts 1 (t0 + win) (by omega) hL
        (fun t ht => by have := hts t ht; omega) m hm
      simp only [windowCallResults, resultsOfTimes, hfirst, List.getD_cons_succ]
      rw [hrec]
      by_cases hcm : m + 1 < L
      · rw [if_pos (by omega : 1 + m < L), if_pos hcm]
        congr 1
        push_cast
        ring
      · rw [if_neg (by omega : ¬ 1 + m < L), if_neg hcm]

/-- Consecutive requests from one client at the given call times, threaded
through the keyed store (no cleanup runs), one result per call. -/
def storeResultsOfTimes (key : String) : RateStore → List Nat → List RateLimitResult
  | _, [] => []
  | st, t :: ts =>
      (storeCheck false st key t 10 60000).1 ::
        storeResultsOfTimes key (storeCheck false st key t 10 60000).2 ts

theorem storeResultsOfTimes_eq (key : String) (ts : List Nat) :
    ∀ st : RateStore, storeResultsOfTimes key st ts =
      resultsOfTimes 10 60000 (storeGet st key) ts := by
  induction ts with
  | nil => intro st; rfl
  | cons t ts ih =>
      intro st
      show (fixedWindowCheck (storeGet st key) t 10 60000).1 ::
          storeResultsOfTimes key
            (storeSet st key (fixedWindowCheck (storeGet st key) t 10 60000).2) ts = _
      rw [ih, storeGet_storeSet_self]
      rfl

/-- The result sequence for one client hitting one endpoint's store at
times `t0 :: ts`, starting from the module-load (empty) store. -/
def storeWindowResults (key : String) (t0 : Nat) (ts : List Nat) : List RateLimitResult :=
  storeResultsOfTimes key [] (t0 :: ts)

theorem storeWindowResults_eq (key : String) (t0 : Nat) (ts : List Nat) :
    storeWindowResults key t0 ts = windowCallResults 10 60000 t0 ts := by
  rw [storeWindowResults, storeResultsOfTimes_eq key (t0 :: ts) []]
  rfl

/-- Per-key ceiling through the store, at arbitrary call times inside one
window: the first 10 requests are allowed, every later one is denied and
gated to `429` with `retry_after = Math.ceil((resetAt - now)/1000)`, which
is at most 60 seconds. -/
theorem storeWindow_ceiling (key : String) (t0 : Nat) (ts : List Nat)
    (hts : ∀ t ∈ ts, t0 ≤ t ∧ t ≤ t0 + 60000) (n : Nat) (hn : n < ts.length + 1) :
    (n < 10 →
      (storeWindowResults key t0 ts).getD n dummyResult =
        { allowed := true, remaining := (10 : Int) - (n + 1), resetAt := t0 + 60000 }) ∧
    (10 ≤ n →
      (storeWindowResults key t0 ts).getD n dummyResult =
        { allowed := false, remaining := 0, resetAt := t0 + 60000 } ∧
      rateLimitGate ((storeWindowResults key t0 ts).getD n dummyResult)
          ((t0 :: ts).getD n 0) =
        some (429, retryAfterSeconds (t0 + 60000) ((t0 :: ts).getD n 0)) ∧
      retryAfterSeconds (t0 + 60000) ((t0 :: ts).getD n 0) ≤ 60) := by
  have hspec := windowCallResults_spec 10 60000 t0 ts (by omega)
    (fun t ht => (hts t ht).2) n hn
  rw [storeWindowResults_eq]
  constructor
  · intro hlt
    rw [hspec, if_pos hlt]
    norm_cast
  · intro hge
    have hres : (windowCallResults 10 60000 t0 ts).getD n dummyResult =
        { allowed := false, remaining := 0, resetAt := t0 + 60000 } := by
      rw [hspec, if_neg (by omega)]
    have htime : t0 ≤ (t0 :: ts).getD n 0 ∧ (t0 :: ts).getD n 0 ≤ t0 + 60000 := by
      cases n with
      | zero => exact ⟨Nat.le_refl t0, by omega⟩
      | succ m =>
          have hm : m < ts.length := by simpa using hn
          have hmem : ts.getD m 0 ∈ ts := by
            rw [List.getD_eq_getElem ts 0 hm]
            exact List.getElem_mem hm
          simpa using hts _ hmem
    have hretry : retryAfterSeconds (t0 + 60000) ((t0 :: ts).getD n 0) ≤ 60 := by
      unfold retryAfterSeconds
      omega
    refine ⟨hres, ?_, hretry⟩
    rw [hres]
    rfl

/-! ### Fixed points of the sanitizer: plain lowercase words.

A single lowercase alphabetic word (length ≤ 19) that is not one of the
blocked SQL keywords or shell command names passes through every pass of
`sanitizeInput` unchanged.  The lemmas below show each pass's matcher
never fires on such input. -/

/-- `[a-z]`. -/
def isLowerAZ (c : Char) : Bool := 97 ≤ c.toNat && c.toNat ≤ 122

/-- Every character of the list is a lowercase letter. -/
def allLower (t : List Char) : Bool := t.all isLowerAZ

theorem isLowerAZ_toNat {c : Char} (h : isLowerAZ c = true) :
    97 ≤ c.toNat ∧ c.toNat ≤ 122 := by
  simpa [isLowerAZ] using h

theorem lower_isWordChar {c : Char} (h : isLowerAZ c = true) : isWordChar c = true := by
  obtain ⟨h1, h2⟩ := isLowerAZ_toNat h
  simp [isWordChar]
  omega

theorem lower_not_isJsSpace {c : Char} (h : isLowerAZ c = true) : isJsSpace c = false := by
  obtain ⟨h1, h2⟩ := isLowerAZ_toNat h
  simp [isJsSpace]
  omega

theorem lower_not_isDigit {c : Char} (h : isLowerAZ c = true) : isDigitChar c = false := by
  obtain ⟨h1, h2⟩ := isLowerAZ_toNat h
  simp [isDigitChar]
  omega

theorem lower_not_ctrl {c : Char} (h : isLowerAZ c = true) : isCtrlStrip c = false := by
  obtain ⟨h1, h2⟩ := isLowerAZ_toNat h
  simp [isCtrlStrip]
  omega

theorem lower_not_zeroWidth {c : Char} (h : isLowerAZ c = true) : isZeroWidth c = false := by
  obtain ⟨h1, h2⟩ := isLowerAZ_toNat h
  simp [isZeroWidth]
  omega

theorem lowerAscii_lower {c : Char} (h : isLowerAZ c = true) : lowerAscii c = c := by
  obtain ⟨h1, h2⟩ := isLowerAZ_toNat h
  unfold lowerAscii
  rw [if_neg]
  simp
  omega

theorem lower_ne {c : Char} (hc : isLowerAZ c = true) {d : Char}
    (hd : isLowerAZ d = false) : c ≠ d := by
  intro h
  rw [h] at hc
  rw [hc] at hd
  cases hd

theorem allLower_head {c : Char} {cs : List Char} (h : allLower (c :: cs) = true) :
    isLowerAZ c = true := by
  simp [allLower, List.all_cons] at h
  exact h.1

theorem allLower_tail {c : Char} {cs : List Char} (h : allLower (c :: cs) = true) :
    allLower cs = true := by
  simp [allLower, List.all_cons] at h ⊢
  exact h.2

theorem allLower_sub {t u : List Char} (h : allLower t = true)
    (hsub : ∀ c ∈ u, c ∈ t) : allLower u = true := by
  simp only [allLower, List.all_eq_true] at h ⊢
  exact fun c hc => h c (hsub c hc)

theorem allLower_drop {t : List Char} (h : allLower t = true) (n : Nat) :
    allLower (t.drop n) = true :=
  allLower_sub h (fun _ hc => List.mem_of_mem_drop hc)

theorem allLower_of_ciPrefix :
    ∀ (pat t : List Char), ciPrefix pat t = true → allLower t = true →
      pat.all isLowerAZ = true
  | [], _, _, _ => rfl
  | p :: ps, [], h, _ => by cases h
  | p :: ps, c :: cs, h, ht => by
      simp only [ciPrefix, Bool.and_eq_true] at h
      obtain ⟨h1, h2⟩ := h
      have hc := allLower_head ht
      have hcs := allLower_tail ht
      simp only [List.all_cons, Bool.and_eq_true]
      constructor
      · rw [← of_decide_eq_true h1, lowerAscii_lower hc]
        exact hc
      · exact allLower_of_ciPrefix ps cs h2 hcs

theorem ciPrefix_false_of_bad (pat t : List Char) (hbad : pat.all isLowerAZ = false)
    (ht : allLower t = true) : ciPrefix pat t = false := by
  cases h : ciPrefix pat t
  · rfl
  · rw [allLower_of_ciPrefix pat t h ht] at hbad
    cases hbad

theorem eq_of_ciPrefix_boundary :
    ∀ (kw t : List Char), allLower t = true → ciPrefix kw t = true →
      boundaryAfterAt (t.drop kw.length) = true → t = kw
  | [], [], _, _, _ => rfl
  | [], c :: cs, ht, _, hb => by
      have hc := allLower_head ht
      simp only [List.length_nil, List.drop_zero, boundaryAfterAt] at hb
      rw [lower_isWordChar hc] at hb
      cases hb
  | p :: ps, [], _, hci, _ => by cases hci
  | p :: ps, c :: cs, ht, hci, hb => by
      simp only [ciPrefix, Bool.and_eq_true] at hci
      obtain ⟨h1, h2⟩ := hci
      have hc := allLower_head ht
      have hcs := allLower_tail ht
      have hp : p = c := by rw [← of_decide_eq_true h1, lowerAscii_lower hc]
      subst hp
      simp only [List.length_cons, List.drop_succ_cons] at hb
      rw [eq_of_ciPrefix_boundary ps cs hcs h2 hb]

theorem firstKw_none :
    ∀ (kws : List (List Char)) (t : List Char), allLower t = true →
      kws.contains t = false → firstKw kws t = none
  | [], _, _, _ => rfl
  | k :: ks, t, ht, hmem => by
      simp only [List.contains_cons, Bool.or_eq_false_iff] at hmem
      obtain ⟨hk, hks⟩ := hmem
      simp only [firstKw]
      by_cases h : (ciPrefix k t && boundaryAfterAt (t.drop k.length)) = true
      · rw [Bool.and_eq_true] at h
        obtain ⟨h1, h2⟩ := h
        have heq : t = k := eq_of_ciPrefix_boundary k t ht h1 h2
        subst heq
        simp at hk
      · rw [Bool.not_eq_true] at h
        rw [h]
        simp only [Bool.false_eq_true, if_false]
        exact firstKw_none ks t ht hks

/-- Positions the scan can reach inside the single word `w`: the suffix
with the character just before it (or the very start). -/
def WordPos (w : List Char) (prev : Option Char) (t : List Char) : Prop :=
  allLower t = true ∧ t.length ≤ w.length ∧
    (prev = none → t = w) ∧ (∀ c, prev = some c → isLowerAZ c = true)

theorem wordPos_start {w : List Char} (hw : allLower w = true) : WordPos w none w :=
  ⟨hw, le_refl _, fun _ => rfl, fun c h => by cases h⟩

theorem wordPos_step {w : List Char} {prev : Option Char} {c : Char} {rest : List Char}
    (h : WordPos w prev (c :: rest)) : WordPos w (some c) rest := by
  obtain ⟨hlow, hlen, _, _⟩ := h
  refine ⟨allLower_tail hlow, ?_, ?_, ?_⟩
  · simp only [List.length_cons] at hlen
    omega
  · intro h
    cases h
  · intro d hd
    cases hd
    exact allLower_head hlow

theorem replaceScan_id (m : Matcher) (rep : List Char) (P : Option Char → List Char → Prop)
    (hnone : ∀ prev s, P prev s → m prev s = none)
    (hstep : ∀ prev c rest, P prev (c :: rest) → P (some c) rest) :
    ∀ (fuel : Nat) (prev : Option Char) (s : List Char), P prev s →
      replaceScan m rep fuel prev s = s
  | 0, _, _, _ => rfl
  | _ + 1, _, [], _ => rfl
  | fuel + 1, prev, c :: rest, hP => by
      simp only [replaceScan, hnone prev (c :: rest) hP]
      rw [replaceScan_id m rep P hnone hstep fuel (some c) rest (hstep prev c rest hP)]

theorem replaceAll_id_word (m : Matcher) (rep : List Char) (w : List Char)
    (hw : allLower w = true)
    (hnone : ∀ prev t, WordPos w prev t → m prev t = none) :
    replaceAll m rep w = w :=
  replaceScan_id m rep (WordPos w) hnone (fun _ _ _ => wordPos_step) w.length none w
    (wordPos_start hw)

theorem spanLen_le_length (p : Char → Bool) : ∀ t : List Char, spanLen p t ≤ t.length
  | [] => Nat.le_refl 0
  | c :: rest => by
      simp only [spanLen, List.length_cons]
      by_cases h : p c = true
      · rw [if_pos h]
        have := spanLen_le_length p rest
        omega
      · rw [if_neg (by simp [h])]
        omega

theorem spanLen_space_zero (t : List Char) (ht : allLower t = true) :
    spanLen isJsSpace t = 0 := by
  cases t with
  | nil => rfl
  | cons c rest =>
      simp only [spanLen]
      rw [if_neg (by simp [lower_not_isJsSpace (allLower_head ht)])]

theorem spanLen_digit_zero (t : List Char) (ht : allLower t = true) :
    spanLen isDigitChar t = 0 := by
  cases t with
  | nil => rfl
  | cons c rest =>
      simp only [spanLen]
      rw [if_neg (by simp [lower_not_isDigit (allLower_head ht)])]

theorem spanLen_all (p : Char → Bool) : ∀ t : List Char, t.all p = true →
    spanLen p t = t.length
  | [], _ => rfl
  | c :: rest, h => by
      simp only [List.all_cons, Bool.and_eq_true] at h
      simp only [spanLen, List.length_cons, if_pos h.1, spanLen_all p rest h.2]

theorem headIs_false (d : Char) (hd : isLowerAZ d = false) (t : List Char)
    (ht : allLower t = true) : headIs d t = false := by
  cases t with
  | nil => rfl
  | cons c rest =>
      simp only [headIs]
      simp [lower_ne (allLower_head ht) hd]

theorem isPrefixOf_head_false {a : Char} (as : List Char) (ha : isLowerAZ a = false) :
    ∀ t, allLower t = true → List.isPrefixOf (a :: as) t = false
  | [], _ => rfl
  | c :: cs, ht => by
      have hc := allLower_head ht
      simp [List.isPrefixOf, Ne.symm (lower_ne hc ha)]

/-- Heads of the exact-literal alternatives are non-letters. -/
def headNonLower : List Char → Bool
  | [] => false
  | a :: _ => !isLowerAZ a

theorem firstLit_none :
    ∀ (lits : List (List Char)) (t : List Char), lits.all headNonLower = true →
      allLower t = true → firstLit lits t = none
  | [], _, _, _ => rfl
  | l :: ls, t, hl, ht => by
      simp only [List.all_cons, Bool.and_eq_true] at hl
      obtain ⟨hhead, hrest⟩ := hl
      cases l with
      | nil => simp [headNonLower] at hhead
      | cons a as =>
          simp only [headNonLower, Bool.not_eq_true'] at hhead
          simp only [firstLit]
          rw [isPrefixOf_head_false as hhead t ht]
          simp only [Bool.false_eq_true, if_false]
          exact firstLit_none ls t hrest ht

theorem classMatch_none (p : Char → Bool) (hp : ∀ c, isLowerAZ c = true → p c = false)
    (prev : Option Char) (t : List Char) (ht : allLower t = true) :
    classMatch p prev t = none := by
  cases t with
  | nil => rfl
  | cons c rest =>
      simp only [classMatch]
      rw [if_neg (by simp [hp c (allLower_head ht)])]

theorem scriptBlockMatch_none (prev : Option Char) (t : List Char)
    (ht : allLower t = true) : scriptBlockMatch prev t = none := by
  simp [scriptBlockMatch, ciPrefix_false_of_bad "<script".data t (by decide) ht]

theorem styleBlockMatch_none (prev : Option Char) (t : List Char)
    (ht : allLower t = true) : styleBlockMatch prev t = none := by
  simp [styleBlockMatch, ciPrefix_false_of_bad "<style".data t (by decide) ht]

theorem htmlTagMatch_none (prev : Option Char) (t : List Char)
    (ht : allLower t = true) : htmlTagMatch prev t = none := by
  cases t with
  | nil => rfl
  | cons c rest =>
      simp [htmlTagMatch, lower_ne (allLower_head ht) (show isLowerAZ '<' = false by decide)]

theorem sqlLitMatch_none (prev : Option Char) (t : List Char)
    (ht : allLower t = true) : sqlLitMatch prev t = none :=
  firstLit_none _ t (by decide) ht

theorem numCompareTail_none (t : List Char) (ht : allLower t = true) :
    numCompareTail t = none := by
  unfold numCompareTail
  rw [spanLen_space_zero t ht]
  simp only [List.drop_zero]
  rw [spanLen_digit_zero t ht]
  simp

theorem sqlOrMatch_none (prev : Option Char) (t : List Char)
    (ht : allLower t = true) : sqlOrMatch prev t = none := by
  unfold sqlOrMatch
  by_cases h : (boundaryBefore prev && ciPrefix ['o', 'r'] t &&
      boundaryAfterAt (t.drop 2)) = true
  · rw [if_pos h, numCompareTail_none (t.drop 2) (allLower_drop ht 2)]
    rfl
  · rw [if_neg h]

theorem sqlAndMatch_none (prev : Option Char) (t : List Char)
    (ht : allLower t = true) : sqlAndMatch prev t = none := by
  unfold sqlAndMatch
  by_cases h : (boundaryBefore prev && ciPrefix ['a', 'n', 'd'] t &&
      boundaryAfterAt (t.drop 3)) = true
  · rw [if_pos h, numCompareTail_none (t.drop 3) (allLower_drop ht 3)]
    rfl
  · rw [if_neg h]

theorem lastKwEnd_none (kw : List Char) :
    ∀ (line : List Char) (pos : Nat) (p : Char), isWordChar p = true →
      allLower line = true → lastKwEnd kw (some p) line pos = none
  | [], _, _, _, _ => rfl
  | c :: rest, pos, p, hp, hline => by
      simp only [lastKwEnd]
      rw [lastKwEnd_none kw rest (pos + 1) c (lower_isWordChar (allLower_head hline))
        (allLower_tail hline)]
      simp [boundaryBefore, hp]

theorem allLower_takeWhile {t : List Char} (ht : allLower t = true) (p : Char → Bool) :
    allLower (t.takeWhile p) = true :=
  allLower_sub ht (fun _ hc => (List.takeWhile_prefix p).subset hc)

theorem sqlUnionSelectMatch_none (prev : Option Char) (t : List Char)
    (ht : allLower t = true) : sqlUnionSelectMatch prev t = none := by
  unfold sqlUnionSelectMatch
  by_cases h : (boundaryBefore prev && ciPrefix "union".data t &&
      boundaryAfterAt (t.drop 5)) = true
  · rw [if_pos h]
    simp [lastKwEnd_none "select".data _ 0 'n' (by decide)
      (allLower_takeWhile (allLower_drop ht 5) _)]
  · rw [if_neg h]

theorem shellMetaMatch_none (prev : Option Char) (t : List Char)
    (ht : allLower t = true) : shellMetaMatch prev t = none := by
  refine classMatch_none _ ?_ prev t ht
  intro c hc
  simp [lower_ne hc (show isLowerAZ ';' = false by decide),
    lower_ne hc (show isLowerAZ '&' = false by decide),
    lower_ne hc (show isLowerAZ '|' = false by decide),
    lower_ne hc (show isLowerAZ btick = false by decide),
    lower_ne hc (show isLowerAZ '$' = false by decide),
    lower_ne hc (show isLowerAZ '(' = false by decide),
    lower_ne hc (show isLowerAZ ')' = false by decide),
    lower_ne hc (show isLowerAZ '{' = false by decide),
    lower_ne hc (show isLowerAZ '}' = false by decide),
    lower_ne hc (show isLowerAZ '[' = false by decide),
    lower_ne hc (show isLowerAZ ']' = false by decide)]

theorem pipedCmdMatch_none (prev : Option Char) (t : List Char)
    (ht : allLower t = true) : pipedCmdMatch prev t = none := by
  cases t with
  | nil => rfl
  | cons c rest =>
      simp [pipedCmdMatch, lower_ne (allLower_head ht) (show isLowerAZ '|' = false by decide)]

theorem devRedirectMatch_none (prev : Option Char) (t : List Char)
    (ht : allLower t = true) : devRedirectMatch prev t = none := by
  cases t with
  | nil => rfl
  | cons c rest =>
      simp [devRedirectMatch, lower_ne (allLower_head ht) (show isLowerAZ '>' = false by decide)]

theorem varExpMatch_none (prev : Option Char) (t : List Char)
    (ht : allLower t = true) : varExpMatch prev t = none := by
  cases t with
  | nil => rfl
  | cons c1 rest =>
      cases rest with
      | nil => rfl
      | cons c2 rest2 =>
          simp [varExpMatch,
            lower_ne (allLower_head ht) (show isLowerAZ '$' = false by decide)]

theorem backtickExprMatch_none (prev : Option Char) (t : List Char)
    (ht : allLower t = true) : backtickExprMatch prev t = none := by
  cases t with
  | nil => rfl
  | cons c rest =>
      simp [backtickExprMatch,
        lower_ne (allLower_head ht) (show isLowerAZ btick = false by decide)]

theorem jsProtoMatch_none (prev : Option Char) (t : List Char)
    (ht : allLower t = true) : jsProtoMatch prev t = none := by
  simp [jsProtoMatch, ciPrefix_false_of_bad "javascript:".data t (by decide) ht]

theorem eventHandlerMatch_none (prev : Option Char) (t : List Char)
    (ht : allLower t = true) : eventHandlerMatch prev t = none := by
  unfold eventHandlerMatch
  by_cases hci : ciPrefix ['o', 'n'] t = true
  · rw [if_pos hci]
    have hall : (t.drop 2).all isWordChar = true := by
      simp only [List.all_eq_true]
      intro c hc
      have := allLower_drop ht 2
      simp only [allLower, List.all_eq_true] at this
      exact lower_isWordChar (this c hc)
    rw [spanLen_all isWordChar (t.drop 2) hall]
    by_cases hw : (t.drop 2).length = 0
    · rw [if_pos hw]
    · rw [if_neg hw]
      have hdrop : t.drop (2 + (t.drop 2).length) = [] := by
        rw [List.drop_eq_nil_iff, List.length_drop] at *
        omega
      rw [hdrop]
      simp only [spanLen]
      rw [show (2 + (t.drop 2).length + 0) = 2 + (t.drop 2).length from rfl, hdrop]
      rfl
  · rw [if_neg hci]

theorem callMatch_none (alts : List (List Char)) (prev : Option Char) (t : List Char)
    (ht : allLower t = true) : callMatch alts prev t = none := by
  unfold callMatch
  cases hfc : firstCiLit alts t with
  | none => rfl
  | some n =>
      have h1 := spanLen_space_zero (t.drop n) (allLower_drop ht n)
      have h2 := headIs_false '(' (by decide) (t.drop n) (allLower_drop ht n)
      simp [h1, h2]

theorem dotMemberMatch_none (base : List Char) (members : List (List Char))
    (hbad : base.all isLowerAZ = false) (prev : Option Char) (t : List Char)
    (ht : allLower t = true) : dotMemberMatch base members prev t = none := by
  simp [dotMemberMatch, ciPrefix_false_of_bad base t hbad ht]

theorem urlMatch_none (prev : Option Char) (t : List Char)
    (ht : allLower t = true) : urlMatch prev t = none := by
  unfold urlMatch
  rw [isPrefixOf_head_false _ (by decide) (t.drop 5) (allLower_drop ht 5)]
  rw [isPrefixOf_head_false _ (by decide) (t.drop 4) (allLower_drop ht 4)]
  simp

theorem newlineMatch_none (prev : Option Char) (t : List Char)
    (ht : allLower t = true) : newlineMatch prev t = none := by
  cases t with
  | nil => rfl
  | cons c rest =>
      simp [newlineMatch,
        lower_ne (allLower_head ht) (show isLowerAZ '\r' = false by decide),
        lower_ne (allLower_head ht) (show isLowerAZ '\n' = false by decide)]

theorem crlfMatch_none (prev : Option Char) (t : List Char)
    (ht : allLower t = true) : crlfMatch prev t = none := by
  cases t with
  | nil => rfl
  | cons c rest =>
      simp [crlfMatch,
        lower_ne (allLower_head ht) (show isLowerAZ '\r' = false by decide)]

theorem spaceRunMatch_none (prev : Option Char) (t : List Char)
    (ht : allLower t = true) : spaceRunMatch prev t = none := by
  unfold spaceRunMatch
  have h : spanLen (fun c => c = ' ') t = 0 := by
    cases t with
    | nil => rfl
    | cons c rest =>
        simp only [spanLen]
        rw [if_neg (by
          simp [lower_ne (allLower_head ht) (show isLowerAZ ' ' = false by decide)])]
  rw [h]
  rfl

theorem pathTraversalMatch_none (prev : Option Char) (t : List Char)
    (ht : allLower t = true) : pathTraversalMatch prev t = none :=
  firstLit_none _ t (by decide) ht

theorem bearerMatch_none (prev : Option Char) (t : List Char)
    (ht : allLower t = true) : bearerMatch prev t = none := by
  unfold bearerMatch
  by_cases hci : ciPrefix "bearer".data t = true
  · rw [if_pos hci, spanLen_space_zero (t.drop 6) (allLower_drop ht 6)]
    rfl
  · rw [if_neg hci]

theorem skKeyMatch_none (prev : Option Char) (t : List Char)
    (ht : allLower t = true) : skKeyMatch prev t = none := by
  simp [skKeyMatch, ciPrefix_false_of_bad "sk-".data t (by decide) ht]

theorem longRunMatch_none (prev : Option Char) (t : List Char)
    (hlen : t.length < 40) : longRunMatch prev t = none := by
  unfold longRunMatch
  have := spanLen_le_length isRunChar t
  rw [if_neg (by omega)]

theorem kwAltMatch_none_wordPos (kws : List (List Char)) (w : List Char)
    (hw : kws.contains w = false) :
    ∀ (prev : Option Char) (t : List Char), WordPos w prev t →
      kwAltMatch kws prev t = none := by
  intro prev t h
  obtain ⟨ht, _, hfull, hsome⟩ := h
  cases prev with
  | some c =>
      have hword := lower_isWordChar (hsome c rfl)
      simp [kwAltMatch, boundaryBefore, hword]
  | none =>
      have heq : t = w := hfull rfl
      subst heq
      simp [kwAltMatch, boundaryBefore, firstKw_none kws t ht hw]

theorem dropWhile_space_id (t : List Char) (ht : allLower t = true) :
    t.dropWhile isJsSpace = t := by
  cases t with
  | nil => rfl
  | cons c rest =>
      rw [List.dropWhile_cons, if_neg (by simp [lower_not_isJsSpace (allLower_head ht)])]

theorem jsTrimList_id (t : List Char) (ht : allLower t = true) : jsTrimList t = t := by
  unfold jsTrimList
  rw [dropWhile_space_id t ht]
  rw [dropWhile_space_id t.reverse (by simpa [allLower, List.all_reverse] using ht)]
  exact List.reverse_reverse t

/-- A clean word: lowercase alphabetic, at most 19 characters, not one of
the blocked SQL keywords or shell command names. -/
def goodCleanWord (w : List Char) : Bool :=
  allLower w && decide (w.length ≤ 19) &&
    !(sqlKeywords.contains w) && !(cmdWords.contains w)

/-- `maxLength` does not truncate `w` (it is absent, `0` — falsy — or at
least the word's length). -/
def maxLenOk (opts : SanitizeOptions) (w : List Char) : Prop :=
  match opts.maxLength with
  | some m => m = 0 ∨ w.length ≤ m
  | none => True

theorem sanitizeList_word_fixed (opts : SanitizeOptions) (w : List Char)
    (hgood : goodCleanWord w = true) (hmax : maxLenOk opts w) :
    sanitizeList opts w = w := by
  unfold goodCleanWord at hgood
  rw [Bool.and_eq_true, Bool.and_eq_true, Bool.and_eq_true,
    Bool.not_eq_true', Bool.not_eq_true'] at hgood
  obtain ⟨⟨⟨hlow, hlen19⟩, hsql⟩, hcmd⟩ := hgood
  have hlen : w.length ≤ 19 := of_decide_eq_true hlen19
  have hmem : ∀ c ∈ w, isLowerAZ c = true := by
    simpa [allLower, List.all_eq_true] using hlow
  have hword : ∀ (m : Matcher) (rep : List Char),
      (∀ prev t, allLower t = true → m prev t = none) → replaceAll m rep w = w :=
    fun m rep hm => replaceAll_id_word m rep w hlow (fun prev t hp => hm prev t hp.1)
  have h1 : w.filter (fun c => !isCtrlStrip c) = w :=
    List.filter_eq_self.mpr (fun c hc => by simp [lower_not_ctrl (hmem c hc)])
  have h9 : w.filter (fun c => !isZeroWidth c) = w :=
    List.filter_eq_self.mpr (fun c hc => by simp [lower_not_zeroWidth (hmem c hc)])
  have hscript := hword scriptBlockMatch [] scriptBlockMatch_none
  have hstyle := hword styleBlockMatch [] styleBlockMatch_none
  have htag := hword htmlTagMatch [] htmlTagMatch_none
  have hamp := hword (classMatch (fun ch => ch = '&')) "&amp;".data
    (classMatch_none _ (fun c hc => by
      simp [lower_ne hc (show isLowerAZ '&' = false by decide)]))
  have hlt := hword (classMatch (fun ch => ch = '<')) "&lt;".data
    (classMatch_none _ (fun c hc => by
      simp [lower_ne hc (show isLowerAZ '<' = false by decide)]))
  have hgt := hword (classMatch (fun ch => ch = '>')) "&gt;".data
    (classMatch_none _ (fun c hc => by
      simp [lower_ne hc (show isLowerAZ '>' = false by decide)]))
  have hquot := hword (classMatch (fun ch => ch = '"')) "&quot;".data
    (classMatch_none _ (fun c hc => by
      simp [lower_ne hc (show isLowerAZ '"' = false by decide)]))
  have haposq := hword (classMatch (fun ch => ch = apos)) "&#x27;".data
    (classMatch_none _ (fun c hc => by
      simp [lower_ne hc (show isLowerAZ apos = false by decide)]))
  have hsqlkw : replaceAll sqlKwMatch blockedRep w = w :=
    replaceAll_id_word _ _ w hlow (kwAltMatch_none_wordPos sqlKeywords w hsql)
  have hsqllit := hword sqlLitMatch blockedRep sqlLitMatch_none
  have hor := hword sqlOrMatch blockedRep sqlOrMatch_none
  have hand := hword sqlAndMatch blockedRep sqlAndMatch_none
  have hunion := hword sqlUnionSelectMatch blockedRep sqlUnionSelectMatch_none
  have hmeta := hword shellMetaMatch blockedRep shellMetaMatch_none
  have hcmdw : replaceAll cmdWordMatch blockedRep w = w :=
    replaceAll_id_word _ _ w hlow (kwAltMatch_none_wordPos cmdWords w hcmd)
  have hpiped := hword pipedCmdMatch blockedRep pipedCmdMatch_none
  have hdev := hword devRedirectMatch blockedRep devRedirectMatch_none
  have hvar := hword varExpMatch blockedRep varExpMatch_none
  have hbt := hword backtickExprMatch blockedRep backtickExprMatch_none
  have hjs := hword jsProtoMatch blockedRep jsProtoMatch_none
  have hev := hword eventHandlerMatch blockedRep eventHandlerMatch_none
  have hevalc := hword (callMatch ["eval".data]) blockedRep (callMatch_none _)
  have hfunc := hword (callMatch ["function".data]) blockedRep (callMatch_none _)
  have htimer := hword (callMatch ["settimeout".data, "setinterval".data]) blockedRep
    (callMatch_none _)
  have hdoc := hword (dotMemberMatch "document.".data
      ["cookie".data, "write".data, "location".data]) blockedRep
    (dotMemberMatch_none _ _ (by decide))
  have hwin := hword (dotMemberMatch "window.".data
      ["location".data, "open".data]) blockedRep
    (dotMemberMatch_none _ _ (by decide))
  have hxhr := hword (callMatch ["xmlhttprequest".data, "fetch".data]) blockedRep
    (callMatch_none _)
  have hurl := hword urlMatch "[BLOCKED_URL]".data urlMatch_none
  have hnl := hword newlineMatch [' '] newlineMatch_none
  have hcrlf := hword crlfMatch ['\n'] crlfMatch_none
  have hcr := hword (classMatch (fun c => c = '\r')) ['\n']
    (classMatch_none _ (fun c hc => by
      simp [lower_ne hc (show isLowerAZ '\r' = false by decide)]))
  have hsprun := hword spaceRunMatch "  ".data spaceRunMatch_none
  have hpath := hword pathTraversalMatch "[BLOCKED_PATH]".data pathTraversalMatch_none
  have hbearer := hword bearerMatch "[API_KEY_REMOVED]".data bearerMatch_none
  have hsk := hword skKeyMatch "[API_KEY_REMOVED]".data skKeyMatch_none
  have hlong : replaceAll longRunMatch "[API_KEY_REMOVED]".data w = w :=
    replaceAll_id_word _ _ w hlow (fun prev t hp => longRunMatch_none prev t (by
      obtain ⟨_, hl, _, _⟩ := hp
      omega))
  have htrim := jsTrimList_id w hlow
  simp only [sanitizeList, h1, hscript, hstyle, htag, hamp, hlt, hgt, hquot, haposq,
    hsqlkw, hsqllit, hor, hand, hunion, hmeta, hcmdw, hpiped, hdev, hvar, hbt, hjs,
    hev, hevalc, hfunc, htimer, hdoc, hwin, hxhr, hurl, hnl, hcrlf, hcr, hsprun, h9,
    hpath, hbearer, hsk, hlong, htrim, ite_self]
  unfold maxLenOk at hmax
  cases hml : opts.maxLength with
  | none => rfl
  | some m =>
      have hm2 : m = 0 ∨ w.length ≤ m := by
        rw [hml] at hmax
        exact hmax
      show (if m ≠ 0 ∧ m < w.length then w.take m else w) = w
      rw [if_neg (by omega)]

/-- The fixed-point property lifted to strings. -/
theorem sanitizeInput_word_fixed (opts : SanitizeOptions) (s : String)
    (hgood : goodCleanWord s.data = true) (hmax : maxLenOk opts s.data) :
    sanitizeInput s opts = s := by
  unfold sanitizeInput
  rw [sanitizeList_word_fixed opts s.data hgood hmax]

/-! ## Characterization of the per-item MCQ validation. -/

theorem truthy_of_orDefault_ne {v : Option String} (h : ¬ orDefault v "" = "") :
    truthy v = true := by
  cases hv : v with
  | none => simp [orDefault, hv] at h
  | some s =>
      simp only [truthy, hv]
      simp only [orDefault, hv] at h
      by_cases hs : s = ""
      · simp [hs] at h
      · simp [hs]

theorem mcqFormatItem_error_of_invalid (b : Bool) (item : McqItemJson)
    (h : mcqItemValid item = false) : ∃ e, mcqFormatItem b item = Except.error e := by
  unfold mcqItemValid at h
  unfold mcqFormatItem
  by_cases hq : orDefault item.question "" = ""
  · rw [if_pos hq]
    exact ⟨_, rfl⟩
  · rw [if_neg hq]
    rw [truthy_of_orDefault_ne hq, Bool.true_and] at h
    cases hopt : item.options with
    | none => exact ⟨_, rfl⟩
    | some opts =>
        rw [hopt] at h
        by_cases hlen : opts.length = 4
        · by_cases hcorr : orDefault item.correct "" = ""
          · exact ⟨"Question " ++ mcqItemIdText item.id ++
              " must have a valid correct answer (A, B, C, or D)", by simp [hlen, hcorr]⟩
          · have hmem : ¬ (strToUpper (orDefault item.correct "") ∈ ["A", "B", "C", "D"]) := by
              rw [truthy_of_orDefault_ne hcorr] at h
              intro hm
              simp [hlen, hm] at h
            exact ⟨"Question " ++ mcqItemIdText item.id ++
              " must have a valid correct answer (A, B, C, or D)", by simp [hlen, hcorr, hmem]⟩
        · exact ⟨"Question " ++ mcqItemIdText item.id ++ " must have exactly 4 options",
            by simp [hlen]⟩

theorem mcqFormatItem_ok_valid (b : Bool) (item : McqItemJson) (m : MCQ)
    (h : mcqFormatItem b item = Except.ok m) : mcqItemValid item = true := by
  unfold mcqFormatItem at h
  by_cases hq : orDefault item.question "" = ""
  · rw [if_pos hq] at h
    cases h
  · rw [if_neg hq] at h
    cases hopt : item.options with
    | none => rw [hopt] at h; cases h
    | some opts =>
        rw [hopt] at h
        by_cases hlen : opts.length = 4
        · by_cases hcorr : orDefault item.correct "" = ""
          · simp [hlen, hcorr] at h
          · by_cases hin : strToUpper (orDefault item.correct "") ∈ ["A", "B", "C", "D"]
            · simp [mcqItemValid, hopt, hlen, truthy_of_orDefault_ne hq,
                truthy_of_orDefault_ne hcorr, hin]
            · simp [hlen, hcorr, hin] at h
        · simp [hlen] at h

theorem mcqFormatItems_error_of_invalid (b : Bool) :
    ∀ (items : List McqItemJson), (∃ item ∈ items, mcqItemValid item = false) →
      ∃ e, mcqFormatItems b items = Except.error e
  | [], h => by simp at h
  | item :: rest, h => by
      simp only [mcqFormatItems]
      cases hfi : mcqFormatItem b item with
      | error e => exact ⟨e, rfl⟩
      | ok m =>
          have hvalid := mcqFormatItem_ok_valid b item m hfi
          obtain ⟨x, hx, hxv⟩ := h
          rcases List.mem_cons.mp hx with hx1 | hx2
          · subst hx1
            rw [hvalid] at hxv
            cases hxv
          · obtain ⟨e, he⟩ := mcqFormatItems_error_of_invalid b rest ⟨x, hx2, hxv⟩
            rw [he]
            exact ⟨e, rfl⟩

theorem mcqFormatItems_ok (b : Bool) :
    ∀ (items : List McqItemJson) (l : List MCQ), mcqFormatItems b items = Except.ok l →
      l.length = items.length ∧ ∀ item ∈ items, mcqItemValid item = true
  | [], l, h => by
      simp only [mcqFormatItems] at h
      cases h
      simp
  | item :: rest, l, h => by
      simp only [mcqFormatItems] at h
      cases hfi : mcqFormatItem b item with
      | error e => rw [hfi] at h; cases h
      | ok m =>
          rw [hfi] at h
          cases hrest : mcqFormatItems b rest with
          | error e => rw [hrest] at h; cases h
          | ok ms =>
              rw [hrest] at h
              cases h
              obtain ⟨hlen, hall⟩ := mcqFormatItems_ok b rest ms hrest
              constructor
              · simp [hlen]
              · intro x hx
                rcases List.mem_cons.mp hx with hx1 | hx2
                · subst hx1
                  exact mcqFormatItem_ok_valid b x m hfi
                · exact hall x hx2

/-! ## Counting the three flashcard types. -/

theorem count_three_types :
    ∀ (l : List Flashcard),
      (∀ c ∈ l, c.type = "concept" ∨ c.type = "application" ∨ c.type = "trick") →
      l.countP (fun c => c.type = "concept") + l.countP (fun c => c.type = "application") +
        l.countP (fun c => c.type = "trick") = l.length
  | [], _ => rfl
  | c :: rest, h => by
      have hrest := count_three_types rest (fun x hx => h x (List.mem_cons_of_mem c hx))
      have hc := h c (List.mem_cons_self c rest)
      simp only [List.countP_cons, List.length_cons]
      rcases hc with h1 | h2 | h3
      · rw [h1]
        rw [if_pos (by decide : (decide (("concept" : String) = "concept")) = true),
          if_neg (by decide : ¬ (decide (("concept" : String) = "application")) = true),
          if_neg (by decide : ¬ (decide (("concept" : String) = "trick")) = true)]
        omega
      · rw [h2]
        rw [if_neg (by decide : ¬ (decide (("application" : String) = "concept")) = true),
          if_pos (by decide : (decide (("application" : String) = "application")) = true),
          if_neg (by decide : ¬ (decide (("application" : String) = "trick")) = true)]
        omega
      · rw [h3]
        rw [if_neg (by decide : ¬ (decide (("trick" : String) = "concept")) = true),
          if_neg (by decide : ¬ (decide (("trick" : String) = "application")) = true),
          if_pos (by decide : (decide (("trick" : String) = "trick")) = true)]
        omega

/-- The mcq-route rate-limit results across repeated requests: each request
builds a fresh limiter, so the `(n+1)`-st request sees the same empty store
as the first. -/
def mcqNthRate (ip : String) (now : Nat) : Nat → RateLimitResult × GlobalRateState
  | 0 => mcqRateStep false ⟨[], []⟩ ip now
  | n + 1 => mcqRateStep false (mcqNthRate ip now n).2 ip now

theorem flashHandleParsed_headers (lvl : String) (len : Nat) (rl : RateLimitResult)
    (p : FlashLlmJson) :
    (flashHandleParsed lvl len rl p).status = 200 →
      (flashHandleParsed lvl len rl p).headers = rlHeaders rl := by
  unfold flashHandleParsed
  split
  · intro h
    simp at h
  · split
    · split
      · split
        · intro h
          simp at h
        · intro _
          rfl
      · intro h
        simp at h
    · intro h
      simp at h

theorem mcqHandleParsed_headers (b : Bool) (len : Nat) (rl : RateLimitResult)
    (p : McqLlmJson) :
    (mcqHandleParsed b len rl p).status = 200 →
      (mcqHandleParsed b len rl p).headers = rlHeaders rl := by
  unfold mcqHandleParsed
  split
  · split
    · intro h
      simp at h
    · intro h
      simp at h
  · split
    · split
      · split
        · intro h
          simp at h
        · split
          · intro _
            rfl
          · intro h
            simp at h
      · intro h
        simp at h
    · intro h
      simp at h

theorem boostHandleParsed_headers (rl : RateLimitResult) (p : BoostLlmJson) :
    (boostHandleParsed rl p).status = 200 →
      (boostHandleParsed rl p).headers = rlHeaders rl := by
  unfold boostHandleParsed
  split
  · intro h
    simp at h
  · split
    · intro _
      rfl
    · intro h
      simp at h

/-! ## The claims. -/

/-- Claim C1, counterexample: the flashcards route answers an LLM reply of
`{"status":"ERROR","error_code":"UPSTREAM_FAILURE",...}` with HTTP 400,
not a 500-class status as the claim requires for codes other than
`INSUFFICIENT_CONTEXT`. -/
theorem C1_error_mapping_counterexample :
    (flashHandleParsed "University Level" 100
        { allowed := true, remaining := 9, resetAt := 60000 }
        { status := some "ERROR", error_code := some "UPSTREAM_FAILURE",
          message := some "the model failed", flashcards := none,
          tokens_estimate := none }).status = 400 ∧
    ¬ 500 ≤ (flashHandleParsed "University Level" 100
        { allowed := true, remaining := 9, resetAt := 60000 }
        { status := some "ERROR", error_code := some "UPSTREAM_FAILURE",
          message := some "the model failed", flashcards := none,
          tokens_estimate := none }).status := by decide

/-- Claim C1, amended: only the mcq route maps `error_code` to a status —
`INSUFFICIENT_CONTEXT` to 400 and every other code to 500, with the code
and the (defaulted) message passed through; the flashcards and
concept-booster routes answer **every** `status:"ERROR"` reply with HTTP
400, passing the reply's `error_code` and message through unchanged. -/
theorem C1_error_mapping_amended :
    (∀ (b : Bool) (len : Nat) (rl : RateLimitResult) (p : McqLlmJson),
      p.status = some "ERROR" →
        (orDefault p.error_code "UNKNOWN_ERROR" = "INSUFFICIENT_CONTEXT" →
          mcqHandleParsed b len rl p =
            { status := 400,
              error := some (orDefault p.message "Failed to generate MCQs"),
              error_code := some (orDefault p.error_code "UNKNOWN_ERROR"),
              mcqs := none, source_tokens := none, headers := [] }) ∧
        (orDefault p.error_code "UNKNOWN_ERROR" ≠ "INSUFFICIENT_CONTEXT" →
          mcqHandleParsed b len rl p =
            { status := 500,
              error := some (orDefault p.message "Failed to generate MCQs"),
              error_code := some (orDefault p.error_code "UNKNOWN_ERROR"),
              mcqs := none, source_tokens := none, headers := [] })) ∧
    (∀ (lvl : String) (len : Nat) (rl : RateLimitResult) (p : FlashLlmJson),
      p.status = some "ERROR" →
        flashHandleParsed lvl len rl p =
          { status := 400,
            error := some (orDefault p.message "Failed to generate flashcards"),
            error_code := p.error_code, flashcards := none, metadata := none,
            headers := [] }) ∧
    (∀ (message error_code : Option String),
      boostHandleError message error_code =
        { status := 400, error := orDefault message "Failed to generate content",
          error_code := error_code }) := by
  refine ⟨?_, ?_, ?_⟩
  · intro b len rl p hst
    constructor
    · intro hic
      unfold mcqHandleParsed
      rw [if_pos hst, if_pos hic]
    · intro hic
      unfold mcqHandleParsed
      rw [if_pos hst, if_neg hic]
  · intro lvl len rl p hst
    unfold flashHandleParsed
    rw [if_pos hst]
  · intro message error_code
    rfl

/-- Claim C1, witness: a concrete `INSUFFICIENT_CONTEXT` reply to the mcq
route yields 400 with the verbatim message, a concrete other code yields
500, and the flashcards route yields 400 for that same other code. -/
theorem C1_error_mapping_witness :
    mcqHandleParsed true 100 { allowed := true, remaining := 9, resetAt := 60000 }
      { status := some "ERROR", error_code := some "INSUFFICIENT_CONTEXT",
        message := some "text has no facts", mcqs := none,
        source_tokens_estimate := none } =
      { status := 400, error := some "text has no facts",
        error_code := some "INSUFFICIENT_CONTEXT", mcqs := none,
        source_tokens := none, headers := [] } ∧
    mcqHandleParsed true 100 { allowed := true, remaining := 9, resetAt := 60000 }
      { status := some "ERROR", error_code := some "UPSTREAM_FAILURE",
        message := some "the model failed", mcqs := none,
        source_tokens_estimate := none } =
      { status := 500, error := some "the model failed",
        error_code := some "UPSTREAM_FAILURE", mcqs := none,
        source_tokens := none, headers := [] } := by
  constructor
  · exact ((C1_error_mapping_amended.1 true 100 _ _ rfl).1 (by decide))
  · exact ((C1_error_mapping_amended.1 true 100 _ _ rfl).2 (by decide))

/-- Claim C5 (confirmed): in the mcq parser a single invalid item (missing
question, options count ≠ 4, or correct answer outside A–D after
upper-casing) fails the whole batch — the throwing map yields an error and
no partial list; a successful map validates every item and keeps them
all. -/
theorem C5_mcq_strictness (b : Bool) (items : List McqItemJson) (len : Nat)
    (rl : RateLimitResult) (p : McqLlmJson) :
    ((∃ item ∈ items, mcqItemValid item = false) →
      ∃ e, mcqFormatItems b items = Except.error e) ∧
    (∀ l, mcqFormatItems b items = Except.ok l →
      l.length = items.length ∧ ∀ item ∈ items, mcqItemValid item = true) ∧
    (p.status = some "OK" → p.mcqs = some items →
      (∃ item ∈ items, mcqItemValid item = false) →
      (mcqHandleParsed b len rl p).status = 500 ∧
        (mcqHandleParsed b len rl p).mcqs = none) := by
  refine ⟨mcqFormatItems_error_of_invalid b items, mcqFormatItems_ok b items, ?_⟩
  intro hst hm hinv
  obtain ⟨e, he⟩ := mcqFormatItems_error_of_invalid b items hinv
  have hne : ¬ items.length = 0 := by
    obtain ⟨x, hx, _⟩ := hinv
    cases items with
    | nil => cases hx
    | cons a l => simp
  unfold mcqHandleParsed
  rw [hst, hm]
  simp only [reduceIte, if_neg hne, he]
  exact ⟨rfl, rfl⟩

/-- Claim C5, witness: five items of which the third has only three
options fail the whole batch with an error (no list of the four valid
items is returned). -/
theorem C5_mcq_strictness_witness :
    ∃ e, mcqFormatItems true
      [⟨some 1, some "q1", some ["a", "b", "c", "d"], some "A", none⟩,
       ⟨some 2, some "q2", some ["a", "b", "c", "d"], some "B", none⟩,
       ⟨some 3, some "q3", some ["a", "b", "c"], some "B", none⟩,
       ⟨some 4, some "q4", some ["a", "b", "c", "d"], some "C", none⟩,
       ⟨some 5, some "q5", some ["a", "b", "c", "d"], some "D", none⟩] =
      Except.error e :=
  (C5_mcq_strictness true _ 0 dummyResult
    { status := none, error_code := none, message := none, mcqs := none,
      source_tokens_estimate := none }).1
    ⟨⟨some 3, some "q3", some ["a", "b", "c"], some "B", none⟩, by decide, by decide⟩

/-- Claim C6 (confirmed): the flashcards parser silently drops items whose
front or back is empty after coercion and trimming, succeeds with the
remaining cards, and reports `metadata.total_cards` equal to the number of
retained cards. -/
theorem C6_flashcard_leniency (lvl : String) (len : Nat) (rl : RateLimitResult)
    (p : FlashLlmJson) (raw : List FlashRawCard)
    (hst : p.status = some "OK") (hfc : p.flashcards = some raw)
    (hne : flashFormat raw ≠ []) :
    (flashHandleParsed lvl len rl p).status = 200 ∧
    (flashHandleParsed lvl len rl p).flashcards = some (flashFormat raw) ∧
    (∃ md, (flashHandleParsed lvl len rl p).metadata = some md ∧
      md.total_cards = (flashFormat raw).length) ∧
    flashFormat raw =
      (raw.enum.map (fun q => flashCoerce q.1 q.2)).filter
        (fun c => c.front ≠ "" ∧ c.back ≠ "") := by
  have hlen : ¬ (flashFormat raw).length = 0 := by
    cases hf : flashFormat raw with
    | nil => exact absurd hf hne
    | cons a l => simp [hf]
  unfold flashHandleParsed
  rw [hst, hfc]
  simp only [reduceIte, if_neg hlen]
  exact ⟨rfl, rfl, ⟨_, rfl, rfl⟩, rfl⟩

/-- Claim C6, witness: five raw cards of which the third has a blank back
give exactly four flashcards and `total_cards = 4`. -/
theorem C6_flashcard_leniency_witness :
    (flashHandleParsed "Class 9–10" 80 { allowed := true, remaining := 9, resetAt := 60000 }
        { status := some "OK", error_code := none, message := none,
          flashcards := some
            [⟨some 1, some "concept", some "f1", some "b1"⟩,
             ⟨some 2, some "application", some "f2", some "b2"⟩,
             ⟨some 3, some "concept", some "f3", some "  "⟩,
             ⟨some 4, some "trick", some "f4", some "b4"⟩,
             ⟨some 5, some "concept", some "f5", some "b5"⟩],
          tokens_estimate := some 40 }).status = 200 ∧
    (∃ md, (flashHandleParsed "Class 9–10" 80
        { allowed := true, remaining := 9, resetAt := 60000 }
        { status := some "OK", error_code := none, message := none,
          flashcards := some
            [⟨some 1, some "concept", some "f1", some "b1"⟩,
             ⟨some 2, some "application", some "f2", some "b2"⟩,
             ⟨some 3, some "concept", some "f3", some "  "⟩,
             ⟨some 4, some "trick", some "f4", some "b4"⟩,
             ⟨some 5, some "concept", some "f5", some "b5"⟩],
          tokens_estimate := some 40 }).metadata = some md ∧ md.total_cards = 4) ∧
    (flashFormat
        [⟨some 1, some "concept", some "f1", some "b1"⟩,
         ⟨some 2, some "application", some "f2", some "b2"⟩,
         ⟨some 3, some "concept", some "f3", some "  "⟩,
         ⟨some 4, some "trick", some "f4", some "b4"⟩,
         ⟨some 5, some "concept", some "f5", some "b5"⟩]).length = 4 := by
  have h := C6_flashcard_leniency "Class 9–10" 80
    { allowed := true, remaining := 9, resetAt := 60000 }
    { status := some "OK", error_code := none, message := none,
      flashcards := some
        [⟨some 1, some "concept", some "f1", some "b1"⟩,
         ⟨some 2, some "application", some "f2", some "b2"⟩,
         ⟨some 3, some "concept", some "f3", some "  "⟩,
         ⟨some 4, some "trick", some "f4", some "b4"⟩,
         ⟨some 5, some "concept", some "f5", some "b5"⟩],
      tokens_estimate := some 40 }
    [⟨some 1, some "concept", some "f1", some "b1"⟩,
     ⟨some 2, some "application", some "f2", some "b2"⟩,
     ⟨some 3, some "concept", some "f3", some "  "⟩,
     ⟨some 4, some "trick", some "f4", some "b4"⟩,
     ⟨some 5, some "concept", some "f5", some "b5"⟩]
    rfl rfl (by decide)
  obtain ⟨h1, _, ⟨md, hmd, htot⟩, _⟩ := h
  exact ⟨h1, ⟨md, hmd, by rw [htot]; decide⟩, by decide⟩

/-- Claim C7, counterexample: a card whose `type` is the unrecognized
string `"definition"` is returned as-is, so the three per-type counts sum
to 0 while `total_cards` is 1. -/
theorem C7_card_types_counterexample :
    (flashHandleParsed "Other" 10 { allowed := true, remaining := 9, resetAt := 60000 }
        { status := some "OK", error_code := none, message := none,
          flashcards := some [⟨some 1, some "definition", some "f", some "b"⟩],
          tokens_estimate := some 3 }).flashcards =
      some [{ id := 1, type := "definition", front := "f", back := "b" }] ∧
    (flashHandleParsed "Other" 10 { allowed := true, remaining := 9, resetAt := 60000 }
        { status := some "OK", error_code := none, message := none,
          flashcards := some [⟨some 1, some "definition", some "f", some "b"⟩],
          tokens_estimate := some 3 }).metadata =
      some { learning_level := "Other", total_cards := 1, concept_cards := 0,
             application_cards := 0, trick_cards := 0, tokens_estimate := 3 } := by
  decide

/-- Claim C7, amended: the route copies each card's `type` through
unchanged (defaulting only a missing or empty `type` to `"concept"`), so
the three counts sum to `total_cards` exactly when every retained card's
type is one of the three known strings; an unrecognized type makes the sum
fall short. -/
theorem C7_card_types_amended (lvl : String) (len : Nat) (rl : RateLimitResult)
    (p : FlashLlmJson) (raw : List FlashRawCard)
    (hst : p.status = some "OK") (hfc : p.flashcards = some raw)
    (hne : flashFormat raw ≠ [])
    (htypes : ∀ c ∈ flashFormat raw,
      c.type = "concept" ∨ c.type = "application" ∨ c.type = "trick") :
    ∃ md, (flashHandleParsed lvl len rl p).metadata = some md ∧
      md.concept_cards + md.application_cards + md.trick_cards = md.total_cards := by
  have hlen : ¬ (flashFormat raw).length = 0 := by
    cases hf : flashFormat raw with
    | nil => exact absurd hf hne
    | cons a l => simp [hf]
  unfold flashHandleParsed
  rw [hst, hfc]
  simp only [reduceIte, if_neg hlen]
  exact ⟨_, rfl, count_three_types (flashFormat raw) htypes⟩

/-- Claim C7, witness: with the three known types present the counts sum
to the total. -/
theorem C7_card_types_witness :
    ∃ md, (flashHandleParsed "Other" 10
        { allowed := true, remaining := 9, resetAt := 60000 }
        { status := some "OK", error_code := none, message := none,
          flashcards := some
            [⟨some 1, some "concept", some "f1", some "b1"⟩,
             ⟨some 2, some "application", some "f2", some "b2"⟩,
             ⟨some 3, some "trick", some "f3", some "b3"⟩],
          tokens_estimate := some 3 }).metadata = some md ∧
      md.concept_cards + md.application_cards + md.trick_cards = md.total_cards :=
  C7_card_types_amended "Other" 10 { allowed := true, remaining := 9, resetAt := 60000 }
    _ [⟨some 1, some "concept", some "f1", some "b1"⟩,
       ⟨some 2, some "application", some "f2", some "b2"⟩,
       ⟨some 3, some "trick", some "f3", some "b3"⟩]
    rfl rfl (by decide) (by decide)

/-- Claim C8, counterexample: a requested model outside any allow-list —
it does not even pass `isValidModel` — is adopted verbatim as the model
sent upstream. -/
theorem C8_model_override_counterexample :
    selectModel "x-ai/grok-4.1-fast" (some "evil-model") = "evil-model" ∧
    isValidModel "evil-model" = false := by decide

/-- Claim C8, amended: no route checks the requested model against an
allow-list (`isValidModel` is never called); the body's `model` replaces
the task's configured model verbatim whenever it is a non-empty string
other than `"auto"`, and the configured model is kept otherwise. -/
theorem C8_model_override_amended (d m : String) :
    selectModel d none = d ∧ selectModel d (some "auto") = d ∧
    selectModel d (some "") = d ∧
    (m ≠ "" → m ≠ "auto" → selectModel d (some m) = m) := by
  refine ⟨rfl, by simp [selectModel], by simp [selectModel], ?_⟩
  intro h1 h2
  simp [selectModel, h1, h2]

/-- Claim C8, witness: a well-formed override is used verbatim and `auto`
falls back to the configured model. -/
theorem C8_model_override_witness :
    selectModel "x-ai/grok-4.1-fast" (some "meta-llama/llama-3.1-70b-instruct") =
      "meta-llama/llama-3.1-70b-instruct" ∧
    selectModel "x-ai/grok-4.1-fast" (some "auto") = "x-ai/grok-4.1-fast" :=
  ⟨(C8_model_override_amended "x-ai/grok-4.1-fast"
      "meta-llama/llama-3.1-70b-instruct").2.2.2 (by decide) (by decide),
   (C8_model_override_amended "x-ai/grok-4.1-fast" "x").2.1⟩

/-- Claim C9, counterexample: the replacer only substitutes string values,
so an object stored under the sensitive key `"auth"` survives redaction
whole — its nested `"user": "bob"` string included — although the claim
requires every sensitive key's value to become `"[REDACTED]"`. -/
theorem C9_redaction_counterexample :
    sensitiveKey "auth" = true ∧
    redactTop (.obj (.cons "auth" (.obj (.cons "user" (.str "bob") .nil)) .nil)) =
      .obj (.cons "auth" (.obj (.cons "user" (.str "bob") .nil)) .nil) ∧
    Json.obj (.cons "user" (.str "bob") .nil) ≠ Json.str "[REDACTED]" :=
  ⟨by decide, rfl, fun h => Json.noConfusion h⟩

/-- Claim C9, amended: the redaction replaces exactly the **string**
values stored under sensitive keys (case-insensitive substring match on
password/secret/key/token/auth), at any depth: in the redacted payload no
sensitive key holds a string other than `"[REDACTED]"`; non-string values
under sensitive keys pass through — their inner strings are redacted only
if their own key is sensitive. -/
theorem C9_redaction_amended :
    (∀ j : Json, redactedOkVal "" (redactTop j) = true) ∧
    (∀ (errorMessage errorName : String) (route operation userId requestId devStack :
        Option String),
      redactedOkVal "" (logErrorSanitized errorMessage errorName route operation
        userId requestId devStack) = true) :=
  ⟨fun j => redactVal_ok "" j, fun _ _ _ _ _ _ _ => redactVal_ok "" _⟩

/-- Claim C2 (confirmed): for one fixed client, consecutive checks inside
one window (first call at `t0`, later calls at times not past
`resetAt = t0 + windowMs`) allow exactly the first `limit` calls with
`remaining` strictly decreasing to 0, deny the rest with `remaining = 0`,
and once the stored `resetAt` has passed, the next check is allowed and
stores a fresh entry with `count = 1`. -/
theorem C2_rate_limiter_monotonic (L win t0 : Nat) (ts : List Nat) (hL : 1 ≤ L)
    (hts : ∀ t ∈ ts, t ≤ t0 + win) :
    (∀ n, n < ts.length + 1 → n < L →
      (windowCallResults L win t0 ts).getD n dummyResult =
        { allowed := true, remaining := (L : Int) - (n + 1), resetAt := t0 + win }) ∧
    (∀ n, n < ts.length + 1 → L ≤ n →
      (windowCallResults L win t0 ts).getD n dummyResult =
        { allowed := false, remaining := 0, resetAt := t0 + win }) ∧
    (∀ n, n + 1 < ts.length + 1 → n + 1 < L →
      ((windowCallResults L win t0 ts).getD (n + 1) dummyResult).remaining <
        ((windowCallResults L win t0 ts).getD n dummyResult).remaining) ∧
    (∀ (e : RateLimitEntry) (now : Nat), e.resetTime < now →
      fixedWindowCheck (some e) now L win =
        ({ allowed := true, remaining := (L : Int) - 1, resetAt := now + win },
          { count := 1, resetTime := now + win })) := by
  refine ⟨?_, ?_, ?_, ?_⟩
  · intro n hn hnL
    rw [windowCallResults_spec L win t0 ts hL hts n hn, if_pos hnL]
  · intro n hn hnL
    rw [windowCallResults_spec L win t0 ts hL hts n hn, if_neg (by omega)]
  · intro n hn hnL
    rw [windowCallResults_spec L win t0 ts hL hts (n + 1) hn, if_pos hnL]
    rw [windowCallResults_spec L win t0 ts hL hts n (by omega), if_pos (by omega)]
    simp only []
    push_cast
    omega
  · intro e now h
    exact fixedWindowCheck_expired e now L win h

/-- Claim C2, witness: with `limit = 10`, `windowMs = 60000` and eleven
calls at time 0, the first call leaves 9, the tenth leaves 0, the eleventh
is denied, and a later call after expiry starts a fresh window with
count 1. -/
theorem C2_rate_limiter_monotonic_witness :
    (windowCallResults 10 60000 0 (List.replicate 10 0)).getD 0 dummyResult =
      { allowed := true, remaining := 9, resetAt := 60000 } ∧
    (windowCallResults 10 60000 0 (List.replicate 10 0)).getD 9 dummyResult =
      { allowed := true, remaining := 0, resetAt := 60000 } ∧
    (windowCallResults 10 60000 0 (List.replicate 10 0)).getD 10 dummyResult =
      { allowed := false, remaining := 0, resetAt := 60000 } ∧
    fixedWindowCheck (some { count := 10, resetTime := 60000 }) 60001 10 60000 =
      ({ allowed := true, remaining := 9, resetAt := 120001 },
        { count := 1, resetTime := 120001 }) := by
  have h := C2_rate_limiter_monotonic 10 60000 0 (List.replicate 10 0) (by decide)
    (fun t ht => by
      rw [List.eq_of_mem_replicate ht]
      omega)
  refine ⟨?_, ?_, ?_, ?_⟩
  · have := h.1 0 (by simp) (by decide)
    simpa using this
  · have := h.1 9 (by simp) (by decide)
    simpa using this
  · have := h.2.1 10 (by simp) (by decide)
    simpa using this
  · have := h.2.2.2 { count := 10, resetTime := 60000 } 60001 (by decide)
    simpa using this

/-- Claim C3, counterexample: `sanitizeInput` is not idempotent — on the
one-character input `"&"` the first application escapes to `"&amp;"`,
blocks the introduced `;`, and re-blocks the marker's brackets; the second
application rewrites the result again. -/
theorem C3_sanitizer_idempotent_counterexample :
    sanitizeInput (sanitizeInput "&" ⟨false, none, false⟩) ⟨false, none, false⟩ ≠
      sanitizeInput "&" ⟨false, none, false⟩ := by decide

/-- Claim C3, amended: double application of `sanitizeInput` can differ
from single application (the escaping and blocking passes rewrite their own
output, see the counterexample); idempotence does hold on inputs the
sanitizer leaves unchanged — in particular every single lowercase word of
at most 19 letters that is not a blocked SQL keyword or shell command name
is a fixed point, so on such inputs
`sanitizeInput (sanitizeInput s) = sanitizeInput s`. -/
theorem C3_sanitizer_idempotent_amended (opts : SanitizeOptions) (s : String)
    (hgood : goodCleanWord s.data = true) (hmax : maxLenOk opts s.data) :
    sanitizeInput (sanitizeInput s opts) opts = sanitizeInput s opts := by
  rw [sanitizeInput_word_fixed opts s hgood hmax,
    sanitizeInput_word_fixed opts s hgood hmax]

/-- Claim C3, witness: the clean word `"photosynthesis"` with the mcq
route's options is a concrete instance of the amended idempotence. -/
theorem C3_sanitizer_idempotent_witness :
    goodCleanWord "photosynthesis".data = true ∧
    sanitizeInput (sanitizeInput "photosynthesis" ⟨false, some 12000, false⟩)
        ⟨false, some 12000, false⟩ =
      sanitizeInput "photosynthesis" ⟨false, some 12000, false⟩ :=
  ⟨by decide,
   C3_sanitizer_idempotent_amended ⟨false, some 12000, false⟩ "photosynthesis"
     (by decide) (Or.inr (by decide))⟩

/-- Claim C4, counterexample: a successful request to the format route —
here with a valid key, body text `"hello"` and an upstream reply `"ok"` —
returns 200 with **no** `X-RateLimit-Remaining`/`X-RateLimit-Reset`
headers, and the route has no 429 path at all, contrary to the claim that
every one of the four endpoints enforces the ceiling and sets the
headers. -/
theorem C4_rate_limit_counterexample :
    formatPOST true (some "hello") (some "ok") =
      { status := 200, formatted := some "ok", error := none, headers := [] } := by
  decide

/-- Claim C4, amended: the flashcards and concept-booster routes enforce
10-per-60s through their module-level stores — at any call times inside
one window the first 10 requests from a client are allowed and every later
one is denied and answered 429 with
`retry_after = Math.ceil((resetAt - now)/1000)`, at most 60 seconds — and
both routes attach the `X-RateLimit-Remaining`/`X-RateLimit-Reset` headers
to their 200 responses, as does the mcq route's response builder; but the
mcq route's check runs against a limiter instance created fresh on every
request, so it allows every request, and the format route neither
rate-limits nor sets the headers. -/
theorem C4_rate_limit_amended :
    (∀ (ip : String) (t0 : Nat) (ts : List Nat),
      (∀ t ∈ ts, t0 ≤ t ∧ t ≤ t0 + 60000) →
      ∀ n, n < ts.length + 1 →
        (n < 10 →
          (storeWindowResults ("flashcards:" ++ ip) t0 ts).getD n dummyResult =
            { allowed := true, remaining := (10 : Int) - (n + 1),
              resetAt := t0 + 60000 }) ∧
        (10 ≤ n →
          (storeWindowResults ("flashcards:" ++ ip) t0 ts).getD n dummyResult =
            { allowed := false, remaining := 0, resetAt := t0 + 60000 } ∧
          rateLimitGate
              ((storeWindowResults ("flashcards:" ++ ip) t0 ts).getD n dummyResult)
              ((t0 :: ts).getD n 0) =
            some (429, retryAfterSeconds (t0 + 60000) ((t0 :: ts).getD n 0)) ∧
          retryAfterSeconds (t0 + 60000) ((t0 :: ts).getD n 0) ≤ 60)) ∧
    (∀ (ip : String) (t0 : Nat) (ts : List Nat),
      (∀ t ∈ ts, t0 ≤ t ∧ t ≤ t0 + 60000) →
      ∀ n, n < ts.length + 1 →
        (n < 10 →
          (storeWindowResults ("concept-booster:" ++ ip) t0 ts).getD n dummyResult =
            { allowed := true, remaining := (10 : Int) - (n + 1),
              resetAt := t0 + 60000 }) ∧
        (10 ≤ n →
          (storeWindowResults ("concept-booster:" ++ ip) t0 ts).getD n dummyResult =
            { allowed := false, remaining := 0, resetAt := t0 + 60000 } ∧
          rateLimitGate
              ((storeWindowResults ("concept-booster:" ++ ip) t0 ts).getD n dummyResult)
              ((t0 :: ts).getD n 0) =
            some (429, retryAfterSeconds (t0 + 60000) ((t0 :: ts).getD n 0)) ∧
          retryAfterSeconds (t0 + 60000) ((t0 :: ts).getD n 0) ≤ 60)) ∧
    (∀ (doClean : Bool) (g : GlobalRateState) (ip : String) (now : Nat),
      (mcqRateStep doClean g ip now).1.allowed = true) ∧
    (∀ (hasApiKey : Bool) (bodyText llmContent : Option String),
      (formatPOST hasApiKey bodyText llmContent).status ≠ 429 ∧
      (formatPOST hasApiKey bodyText llmContent).headers = []) ∧
    (∀ (lvl : String) (len : Nat) (rl : RateLimitResult) (p : FlashLlmJson),
      (flashHandleParsed lvl len rl p).status = 200 →
      (flashHandleParsed lvl len rl p).headers = rlHeaders rl) ∧
    (∀ (rl : RateLimitResult) (p : BoostLlmJson),
      (boostHandleParsed rl p).status = 200 →
      (boostHandleParsed rl p).headers = rlHeaders rl) ∧
    (∀ (b : Bool) (len : Nat) (rl : RateLimitResult) (p : McqLlmJson),
      (mcqHandleParsed b len rl p).status = 200 →
      (mcqHandleParsed b len rl p).headers = rlHeaders rl) := by
  refine ⟨?_, ?_, ?_, ?_, flashHandleParsed_headers, boostHandleParsed_headers,
    mcqHandleParsed_headers⟩
  · intro ip t0 ts hts n hn
    exact storeWindow_ceiling ("flashcards:" ++ ip) t0 ts hts n hn
  · intro ip t0 ts hts n hn
    exact storeWindow_ceiling ("concept-booster:" ++ ip) t0 ts hts n hn
  · intro doClean g ip now
    rw [(mcqRateStep_allowed doClean g ip now).1]
  · intro hasApiKey bodyText llmContent
    unfold formatPOST
    split
    · exact ⟨by simp, rfl⟩
    · split
      · exact ⟨by simp, rfl⟩
      · split
        · exact ⟨by simp, rfl⟩
        · exact ⟨by simp, rfl⟩

/-- Claim C4, witness: concrete instances — with ten further flashcards
requests at 59.5 s after the first, the first request is allowed with 9
remaining, the eleventh is denied and gated to `(429, 1)` (one second to
the window's reset), a concept-booster 200 reply carries the rate-limit
headers, any mcq check is allowed, and a successful format response has
no rate-limit headers. -/
theorem C4_rate_limit_witness :
    (storeWindowResults ("flashcards:" ++ "203.0.113.9") 0
        (List.replicate 10 59500)).getD 0 dummyResult =
      { allowed := true, remaining := 9, resetAt := 60000 } ∧
    (storeWindowResults ("flashcards:" ++ "203.0.113.9") 0
        (List.replicate 10 59500)).getD 10 dummyResult =
      { allowed := false, remaining := 0, resetAt := 60000 } ∧
    rateLimitGate
        ((storeWindowResults ("flashcards:" ++ "203.0.113.9") 0
          (List.replicate 10 59500)).getD 10 dummyResult) 59500 =
      some (429, 1) ∧
    (boostHandleParsed { allowed := true, remaining := 7, resetAt := 60000 }
        { status := some "OK", error_code := none, message := none }).headers =
      rlHeaders { allowed := true, remaining := 7, resetAt := 60000 } ∧
    (mcqRateStep false ⟨[], []⟩ "203.0.113.9" 0).1.allowed = true ∧
    (formatPOST true (some "hello") (some "ok")).headers = [] := by
  have hflash := C4_rate_limit_amended.1 "203.0.113.9" 0 (List.replicate 10 59500)
    (fun t ht => by
      rw [List.eq_of_mem_replicate ht]
      omega)
  refine ⟨?_, ?_, ?_, ?_, ?_, ?_⟩
  · have := (hflash 0 (by decide)).1 (by decide)
    simpa using this
  · have := ((hflash 10 (by decide)).2 (by decide)).1
    simpa using this
  · have h := ((hflash 10 (by decide)).2 (by decide)).2.1
    have hg : (0 :: List.replicate 10 59500).getD 10 0 = 59500 := by decide
    rw [hg] at h
    have hr : retryAfterSeconds (0 + 60000) 59500 = 1 := by decide
    rw [hr] at h
    exact h
  · exact C4_rate_limit_amended.2.2.2.2.2.1
      { allowed := true, remaining := 7, resetAt := 60000 }
      { status := some "OK", error_code := none, message := none } (by decide)
  · exact C4_rate_limit_amended.2.2.1 false ⟨[], []⟩ "203.0.113.9" 0
  · exact (C4_rate_limit_amended.2.2.2.1 true (some "hello") (some "ok")).2

/-- Claim C10, counterexample: the mcq route's limiter instance is created
fresh per request, so the eleventh consecutive mcq request from one client
in one window is still allowed and the shared state is untouched — the
10-per-60-second ceiling is **not** enforced on the mcq endpoint. -/
theorem C10_disjoint_stores_counterexample :
    (mcqNthRate "203.0.113.7" 0 10).1.allowed = true ∧
    (mcqNthRate "203.0.113.7" 0 10).2 = ⟨[], []⟩ := by decide

/-- Claim C10, amended: the flashcards and concept-booster routes keep
disjoint module-level stores — each request reads and writes only its own
endpoint's store, under key namespaces (`"flashcards:"`,
`"concept-booster:"`) that can never collide — and each endpoint's
ceiling is enforced on its own store (the 11th request in a window is
denied); the mcq route touches no shared state at all because its limiter
is rebuilt per request, so its ceiling never triggers across requests. -/
theorem C10_disjoint_stores_amended :
    (∀ (doClean : Bool) (f b : RateStore) (ip : String) (now : Nat),
      flashRateStep doClean ⟨f, b⟩ ip now =
        ((storeCheck doClean f ("flashcards:" ++ ip) now 10 60000).1,
          ⟨(storeCheck doClean f ("flashcards:" ++ ip) now 10 60000).2, b⟩)) ∧
    (∀ (doClean : Bool) (f b : RateStore) (ip : String) (now : Nat),
      boostRateStep doClean ⟨f, b⟩ ip now =
        ((storeCheck doClean b ("concept-booster:" ++ ip) now 10 60000).1,
          ⟨f, (storeCheck doClean b ("concept-booster:" ++ ip) now 10 60000).2⟩)) ∧
    (∀ (doClean : Bool) (g : GlobalRateState) (ip : String) (now : Nat),
      (mcqRateStep doClean g ip now).2 = g ∧
      (mcqRateStep doClean g ip now).1.allowed = true) ∧
    (∀ ip ip' : String, "flashcards:" ++ ip ≠ "concept-booster:" ++ ip') ∧
    (∀ (ip : String) (now : Nat),
      storeNthResult ("flashcards:" ++ ip) now 10 =
        { allowed := false, remaining := 0, resetAt := now + 60000 }) ∧
    (∀ (ip : String) (now : Nat),
      storeNthResult ("concept-booster:" ++ ip) now 10 =
        { allowed := false, remaining := 0, resetAt := now + 60000 }) := by
  have hdeny : ∀ (key : String) (now : Nat),
      storeNthResult key now 10 =
        { allowed := false, remaining := 0, resetAt := now + 60000 } := by
    intro key now
    rw [storeNthResult_eq, nthCallResult_denied 10 now 10 60000 (by omega) (by omega)]
  refine ⟨fun _ _ _ _ _ => rfl, fun _ _ _ _ _ => rfl, ?_, ?_,
    fun ip now => hdeny _ now, fun ip now => hdeny _ now⟩
  · intro doClean g ip now
    obtain ⟨h1, h2⟩ := mcqRateStep_allowed doClean g ip now
    exact ⟨h2, by rw [h1]⟩
  · intro ip ip' h
    have h2 := congrArg String.data h
    simp [String.data_append] at h2

/-- Claim C10, witness: the two endpoint key namespaces are disjoint for a
concrete client, and an mcq request leaves a concrete non-empty shared
state untouched. -/
theorem C10_disjoint_stores_witness :
    ("flashcards:" ++ "203.0.113.7" ≠ "concept-booster:" ++ "203.0.113.7") ∧
    (mcqRateStep true ⟨[("flashcards:x", ⟨3, 1000⟩)], []⟩ "203.0.113.7" 5).2 =
      ⟨[("flashcards:x", ⟨3, 1000⟩)], []⟩ :=
  ⟨C10_disjoint_stores_amended.2.2.2.1 "203.0.113.7" "203.0.113.7",
   (C10_disjoint_stores_amended.2.2.1 true ⟨[("flashcards:x", ⟨3, 1000⟩)], []⟩
     "203.0.113.7" 5).1⟩
